import Mathlib

/-!
Shallow embedding of the deploy / collection-management CLI (the `case` tool).

The embedding follows the Rust sources:

* `src/deploy/process.rs`   — `process_deploy`, the deploy orchestrator;
* `src/deploy/initialize.rs`— `create_tars_data` and `initialize_tars`
  (embedded here as `create_tars_data` and `init_tars`);
* `src/tars.rs`             — `parse_config_price`, `get_tars_state`;
* `src/collections/set.rs`  — `process_set_collection`, `set_collection`;
* `src/collections/remove.rs` — `process_remove_collection`, `remove_collection`;
* `src/errors.rs`           — error constructors.

External effects (RPC reads, transaction submission, the filesystem) are
supplied by an environment record; state-changing remote calls and cache
persistence are recorded in an ordered action trace so that theorems can speak
about what was sent and persisted, and in which order.  Modules of the
repository that are not present under `src/` (the cache store `cache.rs`, the
config-line generator/uploader `deploy/config_lines.rs`, the collection helper
`deploy/collection.rs`, the field validators `validate/parser.rs` and the
config loader) are modelled from the specification; each such definition says
so in its doc comment.
-/

/-- One cache entry (`CacheItem` in `cache.rs`, absent from the sources;
fields are taken from their uses in `src/deploy/process.rs`: `name`,
`metadata_link`, `on_chain`). -/
structure CacheItem where
  name : String
  metadata_link : String
  on_chain : Bool
deriving DecidableEq

/-- The program descriptor stored in the cache (`CacheProgram`): the remote
tars account address (empty string until created) and the collection mint
address. -/
structure CacheProgram where
  tars : String
  collection_mint : String
deriving DecidableEq

/-- The cache aggregate.  `items` models the `IndexMap<String, CacheItem>` as
an insertion-ordered association list with unique keys. -/
structure Cache where
  items : List (String × CacheItem)
  program : CacheProgram
deriving DecidableEq

/-- Modelled from the spec: `Cache::new()` of the absent `cache.rs` — a fresh
empty cache (no items, empty program descriptor). -/
def Cache.new : Cache :=
  { items := [], program := { tars := "", collection_mint := "" } }

/-- One creator entry of the config.  The source's `Creator` lives in the
absent config module; `share` is the revenue share checked by
`create_tars_data`, and `valid` abstracts whether `creator.to_tars_format()`
succeeds (an external parse). -/
structure Creator where
  share : Nat
  valid : Bool
deriving DecidableEq

/-- The configuration loaded by `get_config_data` (config module absent from
the sources; fields are taken from their uses in `process.rs` and
`initialize.rs`). -/
structure ConfigData where
  number : Nat
  symbol : String
  seller_fee_basis_points : Nat
  hidden_settings : Option Unit
  spl_token : Option String
  spl_token_account : Option String
  sol_treasury_account : Option String
  go_live_date : String
  price : Nat
  creators : List Creator
  is_mutable : Bool
  retain_authority : Bool
  end_settings : Option Unit
  whitelist_mint_settings : Option Unit
  gatekeeper : Option Unit
deriving DecidableEq

/-- The on-chain instruction data built by `create_tars_data`
(`src/deploy/initialize.rs`).  Settings structs whose contents the claims
never inspect are carried as `Option Unit` (presence only). -/
structure TarsData where
  uuid : String
  price : Nat
  symbol : String
  seller_fee_basis_points : Nat
  max_supply : Nat
  is_mutable : Bool
  retain_authority : Bool
  go_live_date : Option Int
  end_settings : Option Unit
  creators : List Creator
  whitelist_mint_settings : Option Unit
  hidden_settings : Option Unit
  items_available : Nat
  gatekeeper : Option Unit
deriving DecidableEq

/-- The remote tars account state returned by `get_tars_state`
(`src/tars.rs`); only the fields the embedded code reads. -/
structure TarsState where
  authority : String
  items_redeemed : Nat
  data : TarsData
deriving DecidableEq

/-- Collection NFT metadata (`mpl_token_metadata::state::Metadata`), reduced
to the field `set_collection` / `remove_collection` read. -/
structure Metadata where
  update_authority : String
deriving DecidableEq

/-- Master edition account, reduced to the field `set_collection` reads. -/
structure MasterEditionV2 where
  max_supply : Option Nat
deriving DecidableEq

/-- Errors a deploy run can end with.  Each constructor corresponds to one
`return Err(...)` site of the embedded sources; external-check failures
(`check_name` etc., whose bodies live outside the sources) get one
constructor each. -/
inductive RunError where
  | cacheFileNotFound (path : String)
  | missingName (index : String)
  | checkNameFailed (index : String)
  | missingMetadataLink (index : String)
  | checkUrlFailed (index : String)
  | caseSetupFailed
  | configLoadFailed
  | countMismatch (numItems cacheItems : Nat)
  | checkSymbolFailed
  | checkFeeFailed
  | goLiveDateInvalid
  | creatorFormatFailed
  | creatorsCountInvalid
  | creatorsShareNot100 (share : Nat)
  | checkSplTokenFailed
  | priceMathOverflow
  | splTreasuryConflict
  | checkSplTokenAccountFailed
  | splTokenAccountMissing
  | rentRequestFailed
  | payerAccountFetchFailed
  | balanceTooLow (balance lamports : Nat)
  | sendFailed
  | syncFileFailed
  | invalidTarsAddress (address : String)
  | tarsNotOnChain
  | addConfigLineFailed (count : Nat) (uniqueMessages : List String)
  | collectionTxFailed
  | parseFailed (input : String)
  | authorityMismatch (updateAuthority payer : String)
  | retainAuthorityRequired
  | collectionEditionNotUnique
  | collectionLockedAfterMint
  | metadataFetchFailed
  | editionFetchFailed
  | collectionPdaFetchFailed
deriving DecidableEq

/-- State-changing external actions of a deploy run, in program order.
Read-only RPC calls (rent queries, account fetches) are not traced: the
claims speak about account creation, config-line writes, collection
transactions, persistence, and the interrupt flag. -/
inductive RunAction where
  | initTx (size lamports : Nat) (tars : String)
  | storeInterrupted (value : Bool)
  | uploadInvoke (interrupted : Bool) (lines : Nat)
  | collectionTx (mint : String)
  | removeCollectionTx (mint : String)
  | syncFile (cache : Cache)
deriving DecidableEq

/-- Holds on the actions that touch the remote ledger (as opposed to local
persistence or the local interrupt flag). -/
def RunAction.isRemote : RunAction → Bool
  | .initTx _ _ _ => true
  | .uploadInvoke _ _ => true
  | .collectionTx _ => true
  | .removeCollectionTx _ => true
  | .storeInterrupted _ => false
  | .syncFile _ => false

/-- Environment of one deploy run: the outcome of every external call the
embedded code makes, keyed the way the code consumes it. -/
structure Env where
  /-- Whether `case_setup` succeeds. -/
  caseSetupOk : Bool
  /-- result of `get_config_data` (config module absent; failure = `none`). -/
  configData : Option ConfigData
  /-- The `check_name` outcome (validator `validate/parser.rs` absent). -/
  checkName : String → Bool
  /-- The `check_url` outcome. -/
  checkUrl : String → Bool
  /-- The `check_symbol` outcome. -/
  checkSymbol : String → Bool
  /-- The `check_seller_fee_basis_points` outcome. -/
  checkFee : Nat → Bool
  /-- the pubkey of the fresh `Keypair::new()` in the create branch. -/
  newTarsPubkey : String
  /-- whether `Pubkey::from_str` succeeds on a given string. -/
  parsePubkey : String → Bool
  /-- Result of `go_live_date_as_timestamp` (utils module absent): `none` = parse
  error, otherwise the parsed optional timestamp. -/
  goLiveTimestamp : String → Option (Option Int)
  /-- Result of `check_spl_token` (utils module absent): on success returns the token
  mint's decimals, which `parse_config_price` consumes. -/
  splTokenMint : String → Option Nat
  /-- The `check_spl_token_account` outcome (utils module absent). -/
  checkSplTokenAccount : String → Bool
  /-- Result of `get_associated_token_address(payer, spl_token)`. -/
  assocTokenAddress : String
  /-- the payer / signing keypair pubkey. -/
  payerPubkey : String
  /-- Result of `get_minimum_balance_for_rent_exemption` for a given size (`none` =
  RPC failure). -/
  rentExemption : Nat → Option Nat
  /-- lamports of the payer account (`none` = RPC failure). -/
  payerBalance : Option Nat
  /-- whether the create-and-init transaction send succeeds. -/
  initSendOk : Bool
  /-- whether `cache.sync_file()` succeeds. -/
  syncFileOk : Bool
  /-- Result of `get_tars_state` at an address (`none` = not on chain). -/
  tarsState : String → Option TarsState
  /-- indices the concurrent uploader confirms, in completion order
  (spec-modelled uploader, `deploy/config_lines.rs` absent). -/
  uploadConfirmed : List String
  /-- per-item error messages the uploader returns. -/
  uploadErrors : List String
  /-- the mint created by `create_and_set_collection`. -/
  collectionMint : String
  /-- whether the collection transaction send succeeds. -/
  collectionSendOk : Bool
  /-- the constant `CONFIG_ARRAY_START` (its numeric value lives in the
  absent constants module; the embedding keeps it symbolic). -/
  configArrayStart : Nat
  /-- the constant `CONFIG_LINE_SIZE` (likewise symbolic). -/
  configLineSize : Nat

/-- Constant `LAMPORTS_PER_SOL` (solana constant; only used for display formatting in
the source, never for control flow in the embedded claims). -/
def LAMPORTS_PER_SOL : Nat := 1000000000

/-- Constant `DEFAULT_UUID` from the absent common module; its value does not affect
any claim. -/
def DEFAULT_UUID : String := "ABCDEF"

/-- Modelled from the spec: `price_as_lamports` of the absent config module
(the source works on `f64`; the claims never inspect prices, so the model
multiplies naturals). -/
def price_as_lamports (price : Nat) : Nat :=
  price * LAMPORTS_PER_SOL

/-- Embeds `parse_config_price` (`src/tars.rs`): with an SPL token configured,
validate the mint and scale the price by its decimals with a `u64`
overflow check; otherwise convert the SOL price to lamports. -/
def parse_config_price (env : Env) (config : ConfigData) : Except RunError Nat :=
  match config.spl_token with
  | some spl_token =>
      match env.splTokenMint spl_token with
      | none => .error .checkSplTokenFailed
      | some decimals =>
          if config.price * 10 ^ decimals < 2 ^ 64 then
            .ok (config.price * 10 ^ decimals)
          else
            .error .priceMathOverflow
  | none => .ok (price_as_lamports config.price)

/-- Constant `MAX_CREATOR_LIMIT` re-exported from `mpl_token_metadata` (value 5 in the
dependency). -/
def MAX_CREATOR_LIMIT : Nat := 5

/-- The creator-conversion loop of `create_tars_data`: convert each creator
(failing on the first invalid one) while accumulating the total share. -/
def convertCreators : List Creator → Except RunError (List Creator × Nat)
  | [] => .ok ([], 0)
  | c :: rest =>
      if c.valid then
        match convertCreators rest with
        | .ok (cs, share) => .ok (c :: cs, share + c.share)
        | .error e => .error e
      else
        .error .creatorFormatFailed

/-- Embeds `create_tars_data` (`src/deploy/initialize.rs`): builds the instruction
data, checking the creator count, the 100% share total and the price. -/
def create_tars_data (env : Env) (config : ConfigData) (uuid : String) :
    Except RunError TarsData :=
  match env.goLiveTimestamp config.go_live_date with
  | none => .error .goLiveDateInvalid
  | some go_live_date =>
      match convertCreators config.creators with
      | .error e => .error e
      | .ok (creators, share) =>
          if creators.isEmpty || creators.length > MAX_CREATOR_LIMIT - 1 then
            .error .creatorsCountInvalid
          else if share ≠ 100 then
            .error (.creatorsShareNot100 share)
          else
            match parse_config_price env config with
            | .error e => .error e
            | .ok price =>
                .ok { uuid := uuid
                      price := price
                      symbol := config.symbol
                      seller_fee_basis_points := config.seller_fee_basis_points
                      max_supply := 0
                      is_mutable := config.is_mutable
                      retain_authority := config.retain_authority
                      go_live_date := go_live_date
                      end_settings := config.end_settings
                      creators := creators
                      whitelist_mint_settings := config.whitelist_mint_settings
                      hidden_settings := config.hidden_settings
                      items_available := config.number
                      gatekeeper := config.gatekeeper }

/-- The account-size computation of `initialize_tars`
(`src/deploy/initialize.rs` lines 98–106): hidden settings take the fixed
`CONFIG_ARRAY_START`, otherwise per-item config-line storage is added. -/
def tarsAccountSize (configArrayStart configLineSize : Nat)
    (hidden : Bool) (items_available : Nat) : Nat :=
  if hidden then
    configArrayStart
  else
    configArrayStart + 4 + items_available * configLineSize
      + 8 + 2 * (items_available / 8 + 1)

/-- Embeds `initialize_tars` (`src/deploy/initialize.rs`) as `init_tars`:
compute the account size, query the rent-exemption lamports and the payer
balance, fail with `BalanceTooLow` when the rent exceeds the balance, and
otherwise send the create-account + init transaction. -/
def init_tars (env : Env) (tars_data : TarsData) (tarsPubkey : String) :
    Except RunError Unit × List RunAction :=
  let size := tarsAccountSize env.configArrayStart env.configLineSize
    tars_data.hidden_settings.isSome tars_data.items_available
  match env.rentExemption size with
  | none => (.error .rentRequestFailed, [])
  | some lamports =>
      match env.payerBalance with
      | none => (.error .payerAccountFetchFailed, [])
      | some balance =>
          if lamports > balance then
            (.error (.balanceTooLow balance lamports), [])
          else if env.initSendOk then
            (.ok (), [.initTx size lamports tarsPubkey])
          else
            (.error .sendFailed, [.initTx size lamports tarsPubkey])

/-- The metadata validation loop at the top of `process_deploy`
(`src/deploy/process.rs` lines 61–73): every cache item must have a
non-empty name passing `check_name` and a non-empty metadata link passing
`check_url`; the first offender aborts the run. -/
def validateCacheItems (env : Env) : List (String × CacheItem) → Except RunError Unit
  | [] => .ok ()
  | (index, item) :: rest =>
      if item.name = "" then
        .error (.missingName index)
      else if ¬ env.checkName item.name then
        .error (.checkNameFailed index)
      else if item.metadata_link = "" then
        .error (.missingMetadataLink index)
      else if ¬ env.checkUrl item.metadata_link then
        .error (.checkUrlFailed index)
      else
        validateCacheItems env rest

/-- Modelled from the spec: `generate_config_lines`
(`deploy/config_lines.rs` absent).  Spec §4.2 and §3 (Delta): enumerate
indices `0 .. desired_count - 1` in ascending order and include each index
whose cache record is not yet confirmed on-chain, paired with its encoded
item (name and metadata link); confirmed or absent records produce no line
(the spec's count check has already run in `process_deploy`, so every
enumerated index has a record). -/
def generate_config_lines (num_items : Nat) (items : List (String × CacheItem)) :
    List (Nat × String × String) :=
  (List.range num_items).filterMap fun i =>
    match items.lookup (toString i) with
    | some item =>
        if item.on_chain then none else some (i, item.name, item.metadata_link)
    | none => none

/-- Set `on_chain := true` on the entry with the given key, leaving every
other entry unchanged. -/
def markOnChain : List (String × CacheItem) → String → List (String × CacheItem)
  | [], _ => []
  | (key, item) :: rest, index =>
      if key = index then
        (key, { item with on_chain := true }) :: rest
      else
        (key, item) :: markOnChain rest index

/-- Modelled from the spec: `upload_config_lines` (the Concurrent Uploader,
`deploy/config_lines.rs` absent).  Spec §4.3: each confirmed item is marked
`on_chain` in the cache and the cache is persisted for that one item before
the next confirmation is folded in; the per-item errors are returned to the
caller (supplied as `Env.uploadErrors`).  `confirmed` is the completion
order of the confirmed indices, supplied by the environment because it is
scheduler-dependent. -/
def uploadConfigLinesModel : Cache → List String → Cache × List RunAction
  | cache, [] => (cache, [])
  | cache, index :: rest =>
      let cache1 : Cache := { cache with items := markOnChain cache.items index }
      let step := uploadConfigLinesModel cache1 rest
      (step.1, .syncFile cache1 :: step.2)

/-- Embeds `CacheProgram::new_from_cm` (from the absent `cache.rs`, use site in
`process.rs` line 168): a fresh descriptor holding the newly created tars
address and no collection mint yet. -/
def CacheProgram.new_from_cm (tars_pubkey : String) : CacheProgram :=
  { tars := tars_pubkey, collection_mint := "" }

/-- The treasury-wallet computation of the create branch of `process_deploy`
(lines 122–151): with an SPL token, figure out the receiving token account
(explicit or the associated one), reject a simultaneous SOL treasury, and
validate both the mint and the account; without an SPL token use the
configured SOL treasury or fall back to the payer. -/
def treasuryWallet (env : Env) (config_data : ConfigData) : Except RunError String :=
  match config_data.spl_token with
  | some spl_token =>
      let spl_token_account_figured :=
        if config_data.spl_token_account.isSome then config_data.spl_token_account
        else some env.assocTokenAddress
      if config_data.sol_treasury_account.isSome then
        .error .splTreasuryConflict
      else
        match env.splTokenMint spl_token with
        | none => .error .checkSplTokenFailed
        | some _ =>
            match spl_token_account_figured with
            | some token_account =>
                if env.checkSplTokenAccount token_account then .ok token_account
                else .error .checkSplTokenAccountFailed
            | none => .error .splTokenAccountMissing
  | none =>
      match config_data.sol_treasury_account with
      | some sol_treasury_account => .ok sol_treasury_account
      | none => .ok env.payerPubkey

/-- The first orchestrator step of `process_deploy` (lines 104–207): when the
cached tars address is empty, build the instruction data, resolve the
treasury, create and initialize the account, record the new address in the
cache and persist it; otherwise parse the cached address and fetch the
remote state, remembering whether any item was already redeemed.  Returns
the tars pubkey and the `item_redeemed` flag. -/
def ensureTars (env : Env) (config_data : ConfigData) (cache : Cache) :
    Except RunError (String × Bool) × Cache × List RunAction :=
  if cache.program.tars = "" then
    let tars_pubkey := env.newTarsPubkey
    match create_tars_data env config_data DEFAULT_UUID with
    | .error e => (.error e, cache, [])
    | .ok tars_data =>
        match treasuryWallet env config_data with
        | .error e => (.error e, cache, [])
        | .ok _ =>
            match init_tars env tars_data tars_pubkey with
            | (.error e, acts) => (.error e, cache, acts)
            | (.ok (), acts) =>
                let cache1 : Cache :=
                  { cache with program := CacheProgram.new_from_cm tars_pubkey }
                if env.syncFileOk then
                  (.ok (tars_pubkey, false), cache1, acts ++ [.syncFile cache1])
                else
                  (.error .syncFileFailed, cache1, acts ++ [.syncFile cache1])
  else
    if ¬ env.parsePubkey cache.program.tars then
      (.error (.invalidTarsAddress cache.program.tars), cache, [])
    else
      match env.tarsState cache.program.tars with
      | some tars_state =>
          (.ok (cache.program.tars, decide (tars_state.items_redeemed > 0)), cache, [])
      | none => (.error .tarsNotOnChain, cache, [])

/-- The config-line phase of `process_deploy` (lines 211–259): skipped
entirely in hidden-settings mode; otherwise generate the delta, and when it
is non-empty clear the interrupt flag, run the uploader, and on any
returned errors aggregate them (count plus the deduplicated message set, the
source collects the messages into a `HashSet`) into `AddConfigLineFailed`.
`interrupted0` is the value the shared flag holds on entry; the store
overwrites it with `false` before the uploader reads it. -/
def writePhase (env : Env) (config_data : ConfigData) (cache : Cache)
    (interrupted0 : Bool) : Except RunError Unit × Cache × List RunAction :=
  if config_data.hidden_settings.isSome then
    (.ok (), cache, [])
  else
    let config_lines := generate_config_lines config_data.number cache.items
    if config_lines.isEmpty then
      (.ok (), cache, [])
    else
      let interrupted1 := false
      let upload := uploadConfigLinesModel cache env.uploadConfirmed
      let acts := RunAction.storeInterrupted false
        :: RunAction.uploadInvoke interrupted1 config_lines.length :: upload.2
      let errors := env.uploadErrors
      if errors.isEmpty then
        (.ok (), upload.1, acts)
      else
        (.error (.addConfigLineFailed errors.length errors.dedup), upload.1, acts)

/-- Modelled from the spec: `create_and_set_collection`
(`deploy/collection.rs` absent).  Spec §4.4: performs the one-shot
collection-create-and-attach call and persists the resulting collection
address into the cache; the collection item ("-1") is thereby confirmed. -/
def create_and_set_collection (env : Env) (cache : Cache) :
    Except RunError Unit × Cache × List RunAction :=
  if env.collectionSendOk then
    let cache1 : Cache :=
      { items := markOnChain cache.items "-1"
        program := { cache.program with collection_mint := env.collectionMint } }
    (.ok (), cache1, [.collectionTx env.collectionMint, .syncFile cache1])
  else
    (.error .collectionTxFailed, cache, [.collectionTx env.collectionMint])

/-- The collection step of `process_deploy` (lines 261–286): only runs when
the cache has the sentinel "-1" entry; skipped with a message when an item
was already redeemed, a no-op when the collection item is already confirmed,
otherwise create-and-attach the collection. -/
def collectionPhase (env : Env) (cache : Cache) (item_redeemed : Bool) :
    Except RunError Unit × Cache × List RunAction :=
  match cache.items.lookup "-1" with
  | none => (.ok (), cache, [])
  | some collection_item =>
      if item_redeemed then
        (.ok (), cache, [])
      else if collection_item.on_chain then
        (.ok (), cache, [])
      else
        create_and_set_collection env cache

/-- The phase sequence of `process_deploy` after all up-front validation:
ensure the tars account, write config lines, attach the collection, with the
caches and action traces of the phases chained in program order. -/
def deployPhases (env : Env) (config_data : ConfigData) (cache : Cache)
    (interrupted : Bool) : Except RunError Unit × Cache × List RunAction :=
  match ensureTars env config_data cache with
  | (.error e, cache1, acts1) => (.error e, cache1, acts1)
  | (.ok (_, item_redeemed), cache1, acts1) =>
      match writePhase env config_data cache1 interrupted with
      | (.error e, cache2, acts2) => (.error e, cache2, acts1 ++ acts2)
      | (.ok (), cache2, acts2) =>
          match collectionPhase env cache2 item_redeemed with
          | (r, cache3, acts3) => (r, cache3, acts1 ++ (acts2 ++ acts3))

/-- Embeds `process_deploy` (`src/deploy/process.rs`): the deploy orchestrator over
an already-loaded cache.  `cachePath` is the `--cache` argument (used in the
not-found error), `interrupted` the value of the shared interrupt flag at
entry. -/
def process_deploy (cachePath : String) (cache : Cache) (env : Env)
    (interrupted : Bool) : Except RunError Unit × Cache × List RunAction :=
  if cache.items.isEmpty then
    (.error (.cacheFileNotFound cachePath), cache, [])
  else
    match validateCacheItems env cache.items with
    | .error e => (.error e, cache, [])
    | .ok () =>
        if ¬ env.caseSetupOk then
          (.error .caseSetupFailed, cache, [])
        else
          match env.configData with
          | none => (.error .configLoadFailed, cache, [])
          | some config_data =>
              let num_items := config_data.number
              let collection_in_cache := (cache.items.lookup "-1").isSome
              let cache_items_sans_collection :=
                cache.items.length - (if collection_in_cache then 1 else 0)
              if num_items ≠ cache_items_sans_collection then
                (.error (.countMismatch num_items cache_items_sans_collection), cache, [])
              else if ¬ env.checkSymbol config_data.symbol then
                (.error .checkSymbolFailed, cache, [])
              else if ¬ env.checkFee config_data.seller_fee_basis_points then
                (.error .checkFeeFailed, cache, [])
              else
                deployPhases env config_data cache interrupted

/-- Modelled from the spec: `load_cache` (`cache.rs` absent).  Spec §4.1:
loading fails with NotFound when the file is absent and `allow_missing` is
false — the error constructor is `CacheError::CacheFileNotFound`
(`src/errors.rs`); with `allow_missing` set a fresh cache is returned.
`file` is the parsed file contents, `none` when the file is absent. -/
def load_cache (file : Option Cache) (path : String) (allow_missing : Bool) :
    Except RunError Cache :=
  match file with
  | some cache => .ok cache
  | none =>
      if allow_missing then .ok Cache.new
      else .error (.cacheFileNotFound path)

/-- Environment of one collection set/remove run. -/
structure CollectionsEnv where
  /-- Whether `case_setup` succeeds. -/
  caseSetupOk : Bool
  /-- contents of the cache file (`none` = absent); consumed by `load_cache`
  only when no explicit tars address is given. -/
  cacheFile : Option Cache
  /-- whether `Pubkey::from_str` succeeds on a given string. -/
  parsePubkey : String → Bool
  /-- the payer / signing keypair pubkey. -/
  payerPubkey : String
  /-- Result of `get_tars_state` at an address (`none` = not on chain). -/
  tarsState : String → Option TarsState
  /-- Result of `get_metadata_pda` for a mint (`none` = fetch/deserialize failure). -/
  metadataAccount : String → Option Metadata
  /-- Result of `get_master_edition_pda` for a mint. -/
  masterEdition : String → Option MasterEditionV2
  /-- Result of `get_collection_pda` for a tars address, reduced to the collection
  mint it stores. -/
  collectionPdaMint : String → Option String
  /-- whether the transaction send succeeds. -/
  sendOk : Bool
  /-- whether `cache.sync_file()` succeeds. -/
  syncFileOk : Bool

/-- Arguments of the `collection set` command (`SetCollectionArgs`,
keypair/rpc flags folded into the environment). -/
structure SetCollectionArgs where
  collection_mint : String
  cache : String
  tars : Option String
deriving DecidableEq

/-- Arguments of the `collection remove` command. -/
structure RemoveCollectionArgs where
  cache : String
  tars : Option String
deriving DecidableEq

/-- Embeds `set_collection` (`src/collections/set.rs` lines 124–182): guarded
one-shot set-collection transaction.  Requires `retain_authority`, the payer
to be the collection metadata's update authority, a unique master edition,
and that no item has been redeemed yet. -/
def set_collection (payer : String) (tars_state : TarsState)
    (collection_mint : String) (collection_metadata : Metadata)
    (collection_edition : MasterEditionV2) (sendOk : Bool) :
    Except RunError Unit × List RunAction :=
  if ¬ tars_state.data.retain_authority then
    (.error .retainAuthorityRequired, [])
  else if collection_metadata.update_authority ≠ payer then
    (.error (.authorityMismatch collection_metadata.update_authority payer), [])
  else if collection_edition.max_supply ≠ some 0 then
    (.error .collectionEditionNotUnique, [])
  else if tars_state.items_redeemed > 0 then
    (.error .collectionLockedAfterMint, [])
  else if sendOk then
    (.ok (), [.collectionTx collection_mint])
  else
    (.error .sendFailed, [.collectionTx collection_mint])

/-- Embeds `process_set_collection` (`src/collections/set.rs` lines 29–122): the
`collection set` command.  An explicitly passed tars address takes
precedence over the cache; only when the address came from the cache is the
cache updated afterwards (sentinel "-1" entry removed via `shift_remove`,
collection mint recorded) and persisted. -/
def process_set_collection (env : CollectionsEnv) (args : SetCollectionArgs) :
    Except RunError Unit × List RunAction :=
  if ¬ env.caseSetupOk then
    (.error .caseSetupFailed, [])
  else
    let loaded : Except RunError (String × Cache) :=
      match args.tars with
      | some tars_id => .ok (tars_id, Cache.new)
      | none =>
          match load_cache env.cacheFile args.cache false with
          | .ok cache => .ok (cache.program.tars, cache)
          | .error e => .error e
    match loaded with
    | .error e => (.error e, [])
    | .ok (tars_id, cache) =>
        if ¬ env.parsePubkey args.collection_mint then
          (.error (.parseFailed args.collection_mint), [])
        else if ¬ env.parsePubkey tars_id then
          (.error (.parseFailed tars_id), [])
        else
          match env.tarsState tars_id with
          | none => (.error .tarsNotOnChain, [])
          | some tars_state =>
              match env.metadataAccount args.collection_mint with
              | none => (.error .metadataFetchFailed, [])
              | some collection_metadata =>
                  match env.masterEdition args.collection_mint with
                  | none => (.error .editionFetchFailed, [])
                  | some collection_edition =>
                      if env.payerPubkey ≠ tars_state.authority then
                        (.error (.authorityMismatch env.payerPubkey tars_state.authority), [])
                      else
                        match set_collection env.payerPubkey tars_state
                          args.collection_mint collection_metadata
                          collection_edition env.sendOk with
                        | (.error e, acts) => (.error e, acts)
                        | (.ok (), acts) =>
                            if args.tars.isNone then
                              let cache1 : Cache :=
                                { items := cache.items.filter (fun p => p.1 ≠ "-1")
                                  program := { cache.program with
                                    collection_mint := args.collection_mint } }
                              if env.syncFileOk then
                                (.ok (), acts ++ [.syncFile cache1])
                              else
                                (.error .syncFileFailed, acts ++ [.syncFile cache1])
                            else
                              (.ok (), acts)

/-- Embeds `remove_collection` (`src/collections/remove.rs` lines 105–149): guarded
one-shot remove-collection transaction.  Requires the payer to be the
collection metadata's update authority and that no item has been
redeemed. -/
def remove_collection (payer : String) (tars_state : TarsState)
    (collection_mint : String) (collection_metadata : Metadata)
    (sendOk : Bool) : Except RunError Unit × List RunAction :=
  if collection_metadata.update_authority ≠ payer then
    (.error (.authorityMismatch collection_metadata.update_authority payer), [])
  else if tars_state.items_redeemed > 0 then
    (.error .collectionLockedAfterMint, [])
  else if sendOk then
    (.ok (), [.removeCollectionTx collection_mint])
  else
    (.error .sendFailed, [.removeCollectionTx collection_mint])

/-- Embeds `process_remove_collection` (`src/collections/remove.rs` lines 24–103):
the `collection remove` command.  Mirrors `process_set_collection`: the
collection mint comes from the on-chain collection PDA, and the cache is
mutated (sentinel removed, mint cleared) and persisted only when no explicit
tars address was supplied. -/
def process_remove_collection (env : CollectionsEnv) (args : RemoveCollectionArgs) :
    Except RunError Unit × List RunAction :=
  if ¬ env.caseSetupOk then
    (.error .caseSetupFailed, [])
  else
    let loaded : Except RunError (String × Cache) :=
      match args.tars with
      | some tars_id => .ok (tars_id, Cache.new)
      | none =>
          match load_cache env.cacheFile args.cache false with
          | .ok cache => .ok (cache.program.tars, cache)
          | .error e => .error e
    match loaded with
    | .error e => (.error e, [])
    | .ok (tars_id, cache) =>
        if ¬ env.parsePubkey tars_id then
          (.error (.parseFailed tars_id), [])
        else
          match env.tarsState tars_id with
          | none => (.error .tarsNotOnChain, [])
          | some tars_state =>
              match env.collectionPdaMint tars_id with
              | none => (.error .collectionPdaFetchFailed, [])
              | some collection_mint =>
                  match env.metadataAccount collection_mint with
                  | none => (.error .metadataFetchFailed, [])
                  | some collection_metadata =>
                      if env.payerPubkey ≠ tars_state.authority then
                        (.error (.authorityMismatch env.payerPubkey tars_state.authority), [])
                      else
                        match remove_collection env.payerPubkey tars_state
                          collection_mint collection_metadata env.sendOk with
                        | (.error e, acts) => (.error e, acts)
                        | (.ok (), acts) =>
                            if args.tars.isNone then
                              let cache1 : Cache :=
                                { items := cache.items.filter (fun p => p.1 ≠ "-1")
                                  program := { cache.program with
                                    collection_mint := "" } }
                              if env.syncFileOk then
                                (.ok (), acts ++ [.syncFile cache1])
                              else
                                (.error .syncFileFailed, acts ++ [.syncFile cache1])
                            else
                              (.ok (), acts)

/-- Holds exactly on `countMismatch` errors. -/
def RunError.isCountMismatch : RunError → Bool
  | .countMismatch _ _ => true
  | _ => false

/-- Holds exactly on `uploadInvoke` actions. -/
def RunAction.isUploadInvoke : RunAction → Bool
  | .uploadInvoke _ _ => true
  | _ => false

/-- Holds exactly on `collectionTx` actions. -/
def RunAction.isCollectionTx : RunAction → Bool
  | .collectionTx _ => true
  | _ => false

/-- Holds exactly on `storeInterrupted` actions. -/
def RunAction.isStoreInterrupted : RunAction → Bool
  | .storeInterrupted _ => true
  | _ => false

/-- Holds exactly on `syncFile` actions. -/
def RunAction.isSyncFile : RunAction → Bool
  | .syncFile _ => true
  | _ => false

/-- A minimal well-formed configuration used by the concrete runs below:
one item, one creator with the full share, no SPL token, no hidden
settings. -/
def okConfig : ConfigData :=
  { number := 1
    symbol := "SYM"
    seller_fee_basis_points := 100
    hidden_settings := none
    spl_token := none
    spl_token_account := none
    sol_treasury_account := none
    go_live_date := ""
    price := 1
    creators := [{ share := 100, valid := true }]
    is_mutable := true
    retain_authority := true
    end_settings := none
    whitelist_mint_settings := none
    gatekeeper := none }

/-- A one-item cache with no tars account created yet. -/
def okCache : Cache :=
  { items := [("0", { name := "a", metadata_link := "u", on_chain := false })]
    program := { tars := "", collection_mint := "" } }

/-- An environment in which every external call succeeds. -/
def okEnv : Env :=
  { caseSetupOk := true
    configData := some okConfig
    checkName := fun _ => true
    checkUrl := fun _ => true
    checkSymbol := fun _ => true
    checkFee := fun _ => true
    newTarsPubkey := "TARS1"
    parsePubkey := fun _ => true
    goLiveTimestamp := fun _ => some none
    splTokenMint := fun _ => some 9
    checkSplTokenAccount := fun _ => true
    assocTokenAddress := "ATA"
    payerPubkey := "PAYER"
    rentExemption := fun _ => some 100
    payerBalance := some 1000
    initSendOk := true
    syncFileOk := true
    tarsState := fun _ => none
    uploadConfirmed := ["0"]
    uploadErrors := []
    collectionMint := "MINT"
    collectionSendOk := true
    configArrayStart := 866
    configLineSize := 60 }

/-- The instruction data `create_tars_data okEnv okConfig DEFAULT_UUID`
produces (spelled out for the concrete evaluation theorems). -/
def okTarsData : TarsData :=
  { uuid := DEFAULT_UUID
    price := price_as_lamports 1
    symbol := "SYM"
    seller_fee_basis_points := 100
    max_supply := 0
    is_mutable := true
    retain_authority := true
    go_live_date := none
    end_settings := none
    creators := [{ share := 100, valid := true }]
    whitelist_mint_settings := none
    hidden_settings := none
    items_available := 1
    gatekeeper := none }

/-- A cache holding the collection sentinel plus one confirmed item, with a
tars account already recorded: the input on which the deploy run meets a
remote state with redeemed items. -/
def redeemedCache : Cache :=
  { items :=
      [("-1", { name := "coll", metadata_link := "u", on_chain := false }),
       ("0", { name := "a", metadata_link := "u", on_chain := true })]
    program := { tars := "TARS1", collection_mint := "" } }

/-- A remote tars state reporting one redeemed item. -/
def redeemedState : TarsState :=
  { authority := "PAYER"
    items_redeemed := 1
    data := okTarsData }

/-- Environment `okEnv` pointed at an existing tars whose state has a redeemed item. -/
def redeemedEnv : Env :=
  { okEnv with tarsState := fun a => if a = "TARS1" then some redeemedState else none }

/-- A collections-command environment in which every external call succeeds
and every guard of `set_collection` / `remove_collection` passes. -/
def collOkEnv : CollectionsEnv :=
  { caseSetupOk := true
    cacheFile := some redeemedCache
    parsePubkey := fun _ => true
    payerPubkey := "PAYER"
    tarsState := fun _ => some { authority := "PAYER", items_redeemed := 0, data := okTarsData }
    metadataAccount := fun _ => some { update_authority := "PAYER" }
    masterEdition := fun _ => some { max_supply := some 0 }
    collectionPdaMint := fun _ => some "MINT"
    sendOk := true
    syncFileOk := true }

/-- Environment `okEnv` with the rent requirement raised to exactly the payer balance:
the boundary case of the balance check. -/
def eqEnv : Env :=
  { okEnv with rentExemption := fun _ => some 1000 }

/-- Environment `okEnv` with the uploader returning two identical per-item errors. -/
def errEnv : Env :=
  { okEnv with uploadErrors := ["boom", "boom"] }

/-- A one-item cache whose item lacks a name, for the missing-field check. -/
def missCache : Cache :=
  { items := [("0", { name := "", metadata_link := "u", on_chain := false })]
    program := { tars := "", collection_mint := "" } }

/-- Arguments of `collection set` operating on the cached tars. -/
def setArgs : SetCollectionArgs :=
  { collection_mint := "MINT", cache := "cache.json", tars := none }

/-- Arguments of `collection remove` operating on the cached tars. -/
def removeArgs : RemoveCollectionArgs :=
  { cache := "cache.json", tars := none }

/-- The cache as the collection commands persist it: the sentinel "-1" entry
removed (`shift_remove` on the unique-key map) and the collection mint set to
the given value (`process_set_collection`) or cleared
(`process_remove_collection`). -/
def collectionCacheUpdate (cache : Cache) (mint : String) : Cache :=
  { items := cache.items.filter (fun p => p.1 ≠ "-1")
    program := { cache.program with collection_mint := mint } }

theorem process_deploy_reaches_phases
    (cachePath : String) (cache : Cache) (env : Env) (interrupted : Bool)
    (config_data : ConfigData)
    (h0 : cache.items ≠ [])
    (h1 : validateCacheItems env cache.items = .ok ())
    (h2 : env.caseSetupOk = true)
    (h3 : env.configData = some config_data)
    (h4 : config_data.number =
      cache.items.length - (if (cache.items.lookup "-1").isSome then 1 else 0))
    (h5 : env.checkSymbol config_data.symbol = true)
    (h6 : env.checkFee config_data.seller_fee_basis_points = true) :
    process_deploy cachePath cache env interrupted =
      deployPhases env config_data cache interrupted := by
  have hne : cache.items.isEmpty = false := by
    cases h : cache.items with
    | nil => exact absurd h h0
    | cons a l => rfl
  simp [process_deploy, hne, h1, h2, h3, h4, h5, h6]

theorem uploadConfigLinesModel_actions (cache : Cache) (l : List String) :
    (uploadConfigLinesModel cache l).1.program = cache.program ∧
    ∀ a ∈ (uploadConfigLinesModel cache l).2,
      a.isSyncFile = true ∧ ∀ c, a = .syncFile c → c.program = cache.program := by
  induction l generalizing cache with
  | nil => simp [uploadConfigLinesModel]
  | cons i rest ih =>
      simp only [uploadConfigLinesModel]
      constructor
      · exact (ih _).1
      · intro a ha
        rcases List.mem_cons.mp ha with h | h
        · subst h
          exact ⟨rfl, by intro c hc; cases hc; rfl⟩
        · exact (ih { cache with items := markOnChain cache.items i }).2 a h

theorem writePhase_cache_program (env : Env) (config_data : ConfigData)
    (cache : Cache) (b : Bool) :
    (writePhase env config_data cache b).2.1.program = cache.program := by
  simp only [writePhase]
  split
  · rfl
  · split
    · rfl
    · split <;>
        simpa using (uploadConfigLinesModel_actions cache env.uploadConfirmed).1

theorem writePhase_actions (env : Env) (config_data : ConfigData)
    (cache : Cache) (b : Bool) :
    ∀ a ∈ (writePhase env config_data cache b).2.2,
      a = .storeInterrupted false ∨
      (∃ n, a = .uploadInvoke false n) ∨
      (∃ c, a = .syncFile c ∧ c.program = cache.program) := by
  simp only [writePhase]
  split
  · simp
  · split
    · simp
    · split <;>
      · intro a ha
        rcases List.mem_cons.mp ha with rfl | ha
        · exact Or.inl rfl
        · rcases List.mem_cons.mp ha with rfl | ha
          · exact Or.inr (Or.inl ⟨_, rfl⟩)
          · have h2 := (uploadConfigLinesModel_actions cache env.uploadConfirmed).2 a ha
            rcases a with _ | _ | _ | _ | _ | c
            all_goals simp [RunAction.isSyncFile] at h2
            exact Or.inr (Or.inr ⟨c, rfl, h2⟩)

theorem collectionPhase_actions (env : Env) (cache : Cache) (ir : Bool) :
    (collectionPhase env cache ir).2.1.program.tars = cache.program.tars ∧
    ∀ a ∈ (collectionPhase env cache ir).2.2,
      (∃ m, a = .collectionTx m) ∨
      (∃ c, a = .syncFile c ∧ c.program.tars = cache.program.tars) := by
  simp only [collectionPhase, create_and_set_collection]
  split
  · simp
  · split
    · simp
    · split
      · simp
      · split
        · refine ⟨rfl, ?_⟩
          intro a ha
          rcases List.mem_cons.mp ha with rfl | ha
          · exact Or.inl ⟨_, rfl⟩
          · rcases List.mem_cons.mp ha with rfl | ha
            · exact Or.inr ⟨_, rfl, rfl⟩
            · simp at ha
        · refine ⟨rfl, ?_⟩
          intro a ha
          rcases List.mem_cons.mp ha with rfl | ha
          · exact Or.inl ⟨_, rfl⟩
          · simp at ha

theorem ensureTars_existing (env : Env) (config_data : ConfigData) (cache : Cache)
    (h : cache.program.tars ≠ "") :
    (ensureTars env config_data cache).2.1 = cache ∧
    (ensureTars env config_data cache).2.2 = [] := by
  simp only [ensureTars, if_neg h]
  split
  · simp
  · split <;> simp

theorem init_tars_actions (env : Env) (tars_data : TarsData) (pk : String) :
    ∀ a ∈ (init_tars env tars_data pk).2, ∃ s l, a = .initTx s l pk := by
  simp only [init_tars]
  split
  · simp
  · split
    · simp
    · split
      · simp
      · split <;>
        · intro a ha
          rcases List.mem_cons.mp ha with rfl | ha
          · exact ⟨_, _, rfl⟩
          · simp at ha

theorem ensureTars_actions (env : Env) (config_data : ConfigData) (cache : Cache) :
    ∀ a ∈ (ensureTars env config_data cache).2.2,
      (∃ s l, a = .initTx s l env.newTarsPubkey) ∨
      (∃ c, a = .syncFile c ∧
        c.program = CacheProgram.new_from_cm env.newTarsPubkey) := by
  simp only [ensureTars]
  split
  · split
    · simp
    · rename_i tars_data heqC
      split
      · simp
      · rename_i w heqT
        split
        · rename_i e acts heqI
          have h2 := init_tars_actions env tars_data env.newTarsPubkey
          rw [heqI] at h2
          intro a ha
          exact Or.inl (h2 a ha)
        · rename_i acts heqI
          have h2 := init_tars_actions env tars_data env.newTarsPubkey
          rw [heqI] at h2
          split <;>
          · intro a ha
            rcases List.mem_append.mp ha with ha3 | ha3
            · exact Or.inl (h2 a ha3)
            · rcases List.mem_cons.mp ha3 with rfl | ha4
              · exact Or.inr ⟨_, rfl, rfl⟩
              · simp at ha4
  · split
    · simp
    · split <;> simp

theorem ensureTars_create (env : Env) (config_data : ConfigData) (cache : Cache)
    (tars_data : TarsData) (w : String) (lamports balance : Nat)
    (h8 : cache.program.tars = "")
    (h9 : create_tars_data env config_data DEFAULT_UUID = .ok tars_data)
    (h10 : treasuryWallet env config_data = .ok w)
    (hL : env.rentExemption (tarsAccountSize env.configArrayStart env.configLineSize
        tars_data.hidden_settings.isSome tars_data.items_available) = some lamports)
    (hB : env.payerBalance = some balance)
    (hLB : ¬ lamports > balance)
    (hSend : env.initSendOk = true)
    (hSync : env.syncFileOk = true) :
    ensureTars env config_data cache =
      (.ok (env.newTarsPubkey, false),
       { cache with program := CacheProgram.new_from_cm env.newTarsPubkey },
       [.initTx (tarsAccountSize env.configArrayStart env.configLineSize
          tars_data.hidden_settings.isSome tars_data.items_available) lamports
          env.newTarsPubkey,
        .syncFile { cache with program := CacheProgram.new_from_cm env.newTarsPubkey }]) := by
  simp [ensureTars, init_tars, h8, h9, h10, hL, hB, hLB, hSend, hSync]

theorem create_tars_data_fields (env : Env) (config_data : ConfigData)
    (uuid : String) (tars_data : TarsData)
    (h : create_tars_data env config_data uuid = .ok tars_data) :
    tars_data.items_available = config_data.number ∧
    tars_data.hidden_settings = config_data.hidden_settings := by
  simp only [create_tars_data] at h
  split at h
  · exact absurd h (by simp)
  · split at h
    · exact absurd h (by simp)
    · split at h
      · exact absurd h (by simp)
      · split at h
        · exact absurd h (by simp)
        · split at h
          · exact absurd h (by simp)
          · rcases Except.ok.inj h with rfl
            exact ⟨rfl, rfl⟩

theorem convertCreators_err (l : List Creator) (e : RunError)
    (h : convertCreators l = .error e) : e = .creatorFormatFailed := by
  induction l with
  | nil => simp [convertCreators] at h
  | cons c rest ih =>
      simp only [convertCreators] at h
      split at h
      · split at h
        · exact absurd h (by simp)
        · rename_i e2 heq
          rcases Except.error.inj h with rfl
          exact ih heq
      · rcases Except.error.inj h with rfl
        rfl

theorem parse_config_price_err (env : Env) (config : ConfigData) (e : RunError)
    (h : parse_config_price env config = .error e) : e.isCountMismatch = false := by
  simp only [parse_config_price] at h
  split at h
  · split at h
    · rcases Except.error.inj h with rfl; rfl
    · split at h
      · exact absurd h (by simp)
      · rcases Except.error.inj h with rfl; rfl
  · exact absurd h (by simp)

theorem create_tars_data_err (env : Env) (config : ConfigData) (uuid : String)
    (e : RunError) (h : create_tars_data env config uuid = .error e) :
    e.isCountMismatch = false := by
  simp only [create_tars_data] at h
  split at h
  · rcases Except.error.inj h with rfl; rfl
  · split at h
    · rename_i e2 heq
      rcases Except.error.inj h with rfl
      rw [convertCreators_err _ _ heq]
      rfl
    · split at h
      · rcases Except.error.inj h with rfl; rfl
      · split at h
        · rcases Except.error.inj h with rfl; rfl
        · split at h
          · rename_i e2 heq
            rcases Except.error.inj h with rfl
            exact parse_config_price_err _ _ _ heq
          · exact absurd h (by simp)

theorem treasuryWallet_err (env : Env) (config : ConfigData) (e : RunError)
    (h : treasuryWallet env config = .error e) : e.isCountMismatch = false := by
  simp only [treasuryWallet] at h
  split at h
  · split at h
    · rcases Except.error.inj h with rfl; rfl
    · split at h
      · rcases Except.error.inj h with rfl; rfl
      · split at h
        · split at h
          · exact absurd h (by simp)
          · rcases Except.error.inj h with rfl; rfl
        · rcases Except.error.inj h with rfl; rfl
  · split at h
    · exact absurd h (by simp)
    · exact absurd h (by simp)

theorem init_tars_err (env : Env) (tars_data : TarsData) (pk : String) (e : RunError)
    (h : (init_tars env tars_data pk).1 = .error e) : e.isCountMismatch = false := by
  simp only [init_tars] at h
  split at h
  · rcases Except.error.inj h with rfl; rfl
  · split at h
    · rcases Except.error.inj h with rfl; rfl
    · split at h
      · rcases Except.error.inj h with rfl; rfl
      · split at h
        · exact absurd h (by simp)
        · rcases Except.error.inj h with rfl; rfl

theorem ensureTars_err (env : Env) (config_data : ConfigData) (cache : Cache)
    (e : RunError) (h : (ensureTars env config_data cache).1 = .error e) :
    e.isCountMismatch = false := by
  simp only [ensureTars] at h
  split at h
  · split at h
    · rename_i e2 heq
      rcases Except.error.inj h with rfl
      exact create_tars_data_err _ _ _ _ heq
    · rename_i tars_data heqC
      split at h
      · rename_i e2 heq
        rcases Except.error.inj h with rfl
        exact treasuryWallet_err _ _ _ heq
      · rename_i w heqT
        split at h
        · rename_i e2 acts heqI
          rcases Except.error.inj h with rfl
          exact init_tars_err env tars_data env.newTarsPubkey _ (by rw [heqI])
        · rename_i acts heqI
          split at h
          · exact absurd h (by simp)
          · rcases Except.error.inj h with rfl; rfl
  · split at h
    · rcases Except.error.inj h with rfl; rfl
    · split at h
      · exact absurd h (by simp)
      · rcases Except.error.inj h with rfl; rfl

theorem writePhase_err (env : Env) (config_data : ConfigData) (cache : Cache)
    (b : Bool) (e : RunError)
    (h : (writePhase env config_data cache b).1 = .error e) :
    e.isCountMismatch = false := by
  simp only [writePhase] at h
  split at h
  · exact absurd h (by simp)
  · split at h
    · exact absurd h (by simp)
    · split at h
      · exact absurd h (by simp)
      · rcases Except.error.inj h with rfl; rfl

theorem collectionPhase_err (env : Env) (cache : Cache) (ir : Bool) (e : RunError)
    (h : (collectionPhase env cache ir).1 = .error e) :
    e.isCountMismatch = false := by
  simp only [collectionPhase, create_and_set_collection] at h
  split at h
  · exact absurd h (by simp)
  · split at h
    · exact absurd h (by simp)
    · split at h
      · exact absurd h (by simp)
      · split at h
        · exact absurd h (by simp)
        · rcases Except.error.inj h with rfl; rfl

theorem deployPhases_err (env : Env) (config_data : ConfigData) (cache : Cache)
    (b : Bool) (e : RunError)
    (h : (deployPhases env config_data cache b).1 = .error e) :
    e.isCountMismatch = false := by
  simp only [deployPhases] at h
  split at h
  · rename_i e2 cache1 acts1 heq
    rcases Except.error.inj h with rfl
    exact ensureTars_err _ _ _ _ (by rw [heq])
  · rename_i pk ir cache1 acts1 heqE
    split at h
    · rename_i e2 cache2 acts2 heqW
      rcases Except.error.inj h with rfl
      exact writePhase_err _ _ _ _ _ (by rw [heqW])
    · rename_i cache2 acts2 heqW
      exact collectionPhase_err env cache2 ir e h

theorem lookup_eq_none_of_not_mem_keys (key : String)
    (items : List (String × CacheItem)) (h : key ∉ items.map Prod.fst) :
    items.lookup key = none := by
  induction items with
  | nil => rfl
  | cons p rest ih =>
      simp only [List.map_cons, List.mem_cons] at h
      push_neg at h
      have hbeq : (key == p.1) = false := by
        simpa using h.1
      simp only [List.lookup, hbeq]
      exact ih h.2

theorem lookup_cons_ne_sentinel (k : String) (it : CacheItem)
    (rest : List (String × CacheItem)) (hkey : k ≠ "-1") :
    ((k, it) :: rest).lookup "-1" = rest.lookup "-1" := by
  have hbeq : (("-1" : String) == k) = false := by
    simpa using (Ne.symm hkey)
  simp only [List.lookup, hbeq]

theorem sansCollection_eq_filter (items : List (String × CacheItem))
    (hNodup : (items.map Prod.fst).Nodup) :
    items.length - (if (items.lookup "-1").isSome then 1 else 0) =
      (items.filter (fun p => p.1 ≠ "-1")).length := by
  induction items with
  | nil => simp
  | cons p rest ih =>
      rcases p with ⟨k, it⟩
      simp only [List.map_cons, List.nodup_cons] at hNodup
      obtain ⟨hk, hrest⟩ := hNodup
      by_cases hkey : k = "-1"
      · subst hkey
        have hnot : rest.lookup "-1" = none :=
          lookup_eq_none_of_not_mem_keys _ _ hk
        have hfilter : rest.filter (fun p => p.1 ≠ "-1") = rest := by
          rw [List.filter_eq_self]
          intro a ha
          have hne : a.1 ≠ "-1" := by
            intro hcontra
            exact hk (hcontra ▸ List.mem_map_of_mem Prod.fst ha)
          simpa using hne
        have hlook : (("-1", it) :: rest).lookup "-1" = some it := by
          simp [List.lookup]
        rw [hlook, List.filter_cons_of_neg (by simp), hfilter]
        simp
      · have hlook := lookup_cons_ne_sentinel k it rest hkey
        have hstep := ih hrest
        rw [List.filter_cons_of_pos (by simpa using hkey), hlook]
        cases hl : rest.lookup "-1" with
        | none =>
            rw [hl] at hstep
            simp only [Option.isSome_none, Bool.false_eq_true, if_false] at hstep ⊢
            simp only [List.length_cons]
            omega
        | some v =>
            have hlen : 1 ≤ rest.length := by
              cases rest with
              | nil => simp [List.lookup] at hl
              | cons q l => simp
            rw [hl] at hstep
            simp only [Option.isSome_some, if_true] at hstep ⊢
            simp only [List.length_cons]
            omega

/-- Claim C1 (confirmed): once a deploy run has a non-empty, validated cache
and a loaded config, write m for the cache entry count minus one when the
sentinel "-1" is present (the code's `cache_items_sans_collection`); under
unique keys m equals the number of entries other than the sentinel.  If the
manifest's `number` differs from m, the run returns the count-mismatch error
carrying both counts, with the cache untouched and no action (remote or
local) performed; when the counts agree, no phase of the run can produce a
count-mismatch error. -/
theorem C1_count_mismatch_guard
    (cachePath : String) (cache : Cache) (env : Env) (interrupted : Bool)
    (config_data : ConfigData)
    (hNodup : (cache.items.map Prod.fst).Nodup)
    (h0 : cache.items ≠ [])
    (h1 : validateCacheItems env cache.items = .ok ())
    (h2 : env.caseSetupOk = true)
    (h3 : env.configData = some config_data) :
    (cache.items.length - (if (cache.items.lookup "-1").isSome then 1 else 0) =
        (cache.items.filter (fun p => p.1 ≠ "-1")).length) ∧
    (config_data.number ≠
        cache.items.length - (if (cache.items.lookup "-1").isSome then 1 else 0) →
      process_deploy cachePath cache env interrupted =
        (.error (.countMismatch config_data.number
          (cache.items.length - (if (cache.items.lookup "-1").isSome then 1 else 0))),
         cache, [])) ∧
    (config_data.number =
        cache.items.length - (if (cache.items.lookup "-1").isSome then 1 else 0) →
      ∀ e, (process_deploy cachePath cache env interrupted).1 = .error e →
        e.isCountMismatch = false) := by
  have hne : cache.items.isEmpty = false := by
    cases h : cache.items with
    | nil => exact absurd h h0
    | cons a l => rfl
  refine ⟨sansCollection_eq_filter cache.items hNodup, ?_, ?_⟩
  · intro hNe
    simp [process_deploy, hne, h1, h2, h3, hNe]
  · intro hEq e hErr
    cases hs : (cache.items.lookup "-1").isSome with
    | false =>
        simp only [process_deploy, hne, Bool.false_eq_true, if_false, h1, h3, hs]
          at hErr
        simp only [hs, Bool.false_eq_true, if_false] at hEq
        split at hErr
        · rename_i hcond
          exact absurd h2 hcond
        · split at hErr
          · rename_i hcond
            exact absurd hEq hcond
          · split at hErr
            · rcases Except.error.inj hErr with rfl
              rfl
            · split at hErr
              · rcases Except.error.inj hErr with rfl
                rfl
              · exact deployPhases_err env config_data cache interrupted e hErr
    | true =>
        simp only [process_deploy, hne, Bool.false_eq_true, if_false, h1, h3, hs,
          if_true] at hErr
        simp only [hs, if_true] at hEq
        split at hErr
        · rename_i hcond
          exact absurd h2 hcond
        · split at hErr
          · rename_i hcond
            exact absurd hEq hcond
          · split at hErr
            · rcases Except.error.inj hErr with rfl
              rfl
            · split at hErr
              · rcases Except.error.inj hErr with rfl
                rfl
              · exact deployPhases_err env config_data cache interrupted e hErr

theorem deployPhases_create_shape (env : Env) (config_data : ConfigData)
    (cache : Cache) (interrupted : Bool) (tars_data : TarsData) (w : String)
    (lamports balance : Nat)
    (h8 : cache.program.tars = "")
    (h9 : create_tars_data env config_data DEFAULT_UUID = .ok tars_data)
    (h10 : treasuryWallet env config_data = .ok w)
    (hL : env.rentExemption (tarsAccountSize env.configArrayStart env.configLineSize
        tars_data.hidden_settings.isSome tars_data.items_available) = some lamports)
    (hB : env.payerBalance = some balance)
    (hLB : ¬ lamports > balance)
    (hSend : env.initSendOk = true)
    (hSync : env.syncFileOk = true) :
    ∃ rest,
      (deployPhases env config_data cache interrupted).2.2 =
        .initTx (tarsAccountSize env.configArrayStart env.configLineSize
          tars_data.hidden_settings.isSome tars_data.items_available) lamports
          env.newTarsPubkey ::
        .syncFile { cache with program := CacheProgram.new_from_cm env.newTarsPubkey }
          :: rest ∧
      (∀ a ∈ (writePhase env config_data
          { cache with program := CacheProgram.new_from_cm env.newTarsPubkey }
          interrupted).2.2, a ∈ rest) ∧
      (∀ a ∈ rest,
        a ∈ (writePhase env config_data
          { cache with program := CacheProgram.new_from_cm env.newTarsPubkey }
          interrupted).2.2 ∨
        (∃ m, a = .collectionTx m) ∨
        (∃ c, a = .syncFile c ∧ c.program.tars = env.newTarsPubkey)) ∧
      (deployPhases env config_data cache interrupted).2.1.program.tars =
        env.newTarsPubkey := by
  have hE := ensureTars_create env config_data cache tars_data w lamports balance
    h8 h9 h10 hL hB hLB hSend hSync
  simp only [deployPhases, hE]
  rcases hW : writePhase env config_data
      { cache with program := CacheProgram.new_from_cm env.newTarsPubkey }
      interrupted with ⟨r2, cache2, acts2⟩
  have hWp := writePhase_cache_program env config_data
      { cache with program := CacheProgram.new_from_cm env.newTarsPubkey } interrupted
  rw [hW] at hWp
  rcases r2 with e2 | u2
  · refine ⟨acts2, rfl, ?_, ?_, ?_⟩
    · intro a ha
      exact ha
    · intro a ha
      exact Or.inl ha
    · exact congrArg CacheProgram.tars hWp
  · rcases u2
    rcases hC : collectionPhase env cache2 false with ⟨r3, cache3, acts3⟩
    have hCp := collectionPhase_actions env cache2 false
    rw [hC] at hCp
    refine ⟨acts2 ++ acts3, by simp [hC], ?_, ?_, ?_⟩
    · intro a ha
      exact List.mem_append.mpr (Or.inl ha)
    · intro a ha
      rcases List.mem_append.mp ha with ha | ha
      · exact Or.inl ha
      · rcases hCp.2 a ha with h | ⟨c, rfl, hc⟩
        · exact Or.inr (Or.inl h)
        · refine Or.inr (Or.inr ⟨c, rfl, ?_⟩)
          rw [hc, congrArg CacheProgram.tars hWp]
          rfl
    · have h3 : cache3.program.tars = cache2.program.tars := hCp.1
      have hc2 : cache2.program = CacheProgram.new_from_cm env.newTarsPubkey := hWp
      simp [hC, h3, hc2, CacheProgram.new_from_cm]

theorem writePhase_hidden (env : Env) (config_data : ConfigData) (cache : Cache)
    (b : Bool) (h : config_data.hidden_settings.isSome = true) :
    writePhase env config_data cache b = (.ok (), cache, []) := by
  simp [writePhase, h]

theorem writePhase_upload_acts (env : Env) (config_data : ConfigData)
    (cache : Cache) (b : Bool)
    (hHidden : config_data.hidden_settings = none)
    (hLines : generate_config_lines config_data.number cache.items ≠ []) :
    (writePhase env config_data cache b).2.2 =
      .storeInterrupted false
        :: .uploadInvoke false
            (generate_config_lines config_data.number cache.items).length
        :: (uploadConfigLinesModel cache env.uploadConfirmed).2 := by
  have hne : (generate_config_lines config_data.number cache.items).isEmpty = false := by
    cases hg : generate_config_lines config_data.number cache.items with
    | nil => exact absurd hg hLines
    | cons x xs => rfl
  simp only [writePhase, hHidden, Option.isSome_none, Bool.false_eq_true, if_false,
    hne]
  split <;> rfl

theorem writePhase_upload_result (env : Env) (config_data : ConfigData)
    (cache : Cache) (b : Bool)
    (hHidden : config_data.hidden_settings = none)
    (hLines : generate_config_lines config_data.number cache.items ≠ [])
    (hErrs : env.uploadErrors ≠ []) :
    (writePhase env config_data cache b).1 =
      .error (.addConfigLineFailed env.uploadErrors.length env.uploadErrors.dedup) := by
  have hne : (generate_config_lines config_data.number cache.items).isEmpty = false := by
    cases hg : generate_config_lines config_data.number cache.items with
    | nil => exact absurd hg hLines
    | cons x xs => rfl
  have hne2 : env.uploadErrors.isEmpty = false := by
    cases hg : env.uploadErrors with
    | nil => exact absurd hg hErrs
    | cons x xs => rfl
  simp [writePhase, hHidden, hne, hne2]

/-- Claim C3 (confirmed): on the account-creating path of a deploy, when
hidden settings are present the created account's size is exactly
`CONFIG_ARRAY_START` and the run never stores the interrupt flag nor invokes
the uploader (the config-line phase is skipped); when hidden settings are
absent the size is `CONFIG_ARRAY_START + 4 + items_available * CONFIG_LINE_SIZE
+ 8 + 2 * (items_available / 8 + 1)` and the uploader is invoked whenever the
generated delta is non-empty. -/
theorem C3_hidden_settings_size
    (cachePath : String) (cache : Cache) (env : Env) (interrupted : Bool)
    (config_data : ConfigData) (tars_data : TarsData) (w : String)
    (lamports balance : Nat)
    (h0 : cache.items ≠ [])
    (h1 : validateCacheItems env cache.items = .ok ())
    (h2 : env.caseSetupOk = true)
    (h3 : env.configData = some config_data)
    (h4 : config_data.number =
      cache.items.length - (if (cache.items.lookup "-1").isSome then 1 else 0))
    (h5 : env.checkSymbol config_data.symbol = true)
    (h6 : env.checkFee config_data.seller_fee_basis_points = true)
    (h8 : cache.program.tars = "")
    (h9 : create_tars_data env config_data DEFAULT_UUID = .ok tars_data)
    (h10 : treasuryWallet env config_data = .ok w)
    (hL : env.rentExemption (tarsAccountSize env.configArrayStart env.configLineSize
        config_data.hidden_settings.isSome config_data.number) = some lamports)
    (hB : env.payerBalance = some balance)
    (hLB : ¬ lamports > balance)
    (hSend : env.initSendOk = true)
    (hSync : env.syncFileOk = true) :
    (config_data.hidden_settings.isSome = true →
      (∃ rest, (process_deploy cachePath cache env interrupted).2.2 =
        .initTx env.configArrayStart lamports env.newTarsPubkey :: rest) ∧
      (∀ a ∈ (process_deploy cachePath cache env interrupted).2.2,
        a.isUploadInvoke = false ∧ a.isStoreInterrupted = false)) ∧
    (config_data.hidden_settings = none →
      (∃ rest, (process_deploy cachePath cache env interrupted).2.2 =
        .initTx (env.configArrayStart + 4 + config_data.number * env.configLineSize
          + 8 + 2 * (config_data.number / 8 + 1)) lamports env.newTarsPubkey :: rest) ∧
      (generate_config_lines config_data.number cache.items ≠ [] →
        ∃ n, .uploadInvoke false n ∈
          (process_deploy cachePath cache env interrupted).2.2)) := by
  have hFields := create_tars_data_fields env config_data DEFAULT_UUID tars_data h9
  have hL2 : env.rentExemption (tarsAccountSize env.configArrayStart
      env.configLineSize tars_data.hidden_settings.isSome tars_data.items_available) =
      some lamports := by
    rw [hFields.1, hFields.2]
    exact hL
  have hReach := process_deploy_reaches_phases cachePath cache env interrupted
    config_data h0 h1 h2 h3 h4 h5 h6
  obtain ⟨rest, htr, hsub, hsup, hfin⟩ := deployPhases_create_shape env config_data
    cache interrupted tars_data w lamports balance h8 h9 h10 hL2 hB hLB hSend hSync
  constructor
  · intro hHid
    have hsize : tarsAccountSize env.configArrayStart env.configLineSize
        tars_data.hidden_settings.isSome tars_data.items_available =
        env.configArrayStart := by
      rw [hFields.2, hHid]
      rfl
    constructor
    · refine ⟨.syncFile { cache with
        program := CacheProgram.new_from_cm env.newTarsPubkey } :: rest, ?_⟩
      rw [hReach, htr, hsize]
    · intro a ha
      rw [hReach, htr] at ha
      rcases List.mem_cons.mp ha with rfl | ha
      · exact ⟨rfl, rfl⟩
      · rcases List.mem_cons.mp ha with rfl | ha
        · exact ⟨rfl, rfl⟩
        · rcases hsup a ha with hw | ⟨m, rfl⟩ | ⟨c, rfl, _⟩
          · rw [writePhase_hidden env config_data _ interrupted hHid] at hw
            simp at hw
          · exact ⟨rfl, rfl⟩
          · exact ⟨rfl, rfl⟩
  · intro hHid
    have hsize : tarsAccountSize env.configArrayStart env.configLineSize
        tars_data.hidden_settings.isSome tars_data.items_available =
        env.configArrayStart + 4 + config_data.number * env.configLineSize
          + 8 + 2 * (config_data.number / 8 + 1) := by
      rw [hFields.2, hFields.1, hHid]
      rfl
    constructor
    · refine ⟨.syncFile { cache with
        program := CacheProgram.new_from_cm env.newTarsPubkey } :: rest, ?_⟩
      rw [hReach, htr, hsize]
    · intro hLines
      refine ⟨(generate_config_lines config_data.number cache.items).length, ?_⟩
      rw [hReach, htr]
      have hmem : RunAction.uploadInvoke false
          (generate_config_lines config_data.number cache.items).length ∈
          (writePhase env config_data
            { cache with program := CacheProgram.new_from_cm env.newTarsPubkey }
            interrupted).2.2 := by
        rw [writePhase_upload_acts env config_data
          { cache with program := CacheProgram.new_from_cm env.newTarsPubkey }
          interrupted hHid hLines]
        exact List.mem_cons.mpr (Or.inr (List.mem_cons.mpr (Or.inl rfl)))
      exact List.mem_cons.mpr (Or.inr (List.mem_cons.mpr (Or.inr (hsub _ hmem))))

theorem deployPhases_tars_stable (env : Env) (config_data : ConfigData)
    (cache : Cache) (b : Bool) (h : cache.program.tars ≠ "") :
    (deployPhases env config_data cache b).2.1.program.tars = cache.program.tars ∧
    ∀ c, .syncFile c ∈ (deployPhases env config_data cache b).2.2 →
      c.program.tars = cache.program.tars := by
  have hEx := ensureTars_existing env config_data cache h
  simp only [deployPhases]
  rcases hE : ensureTars env config_data cache with ⟨r1, cache1, acts1⟩
  rw [hE] at hEx
  have hc1 : cache1 = cache := hEx.1
  have ha1 : acts1 = [] := hEx.2
  rw [hc1, ha1]
  rcases r1 with e1 | ⟨pk, ir⟩
  · simp
  · dsimp only []
    rcases hW : writePhase env config_data cache b with ⟨r2, cache2, acts2⟩
    have hWp := writePhase_cache_program env config_data cache b
    have hWa := writePhase_actions env config_data cache b
    rw [hW] at hWp hWa
    rcases r2 with e2 | u2
    · refine ⟨congrArg CacheProgram.tars hWp, ?_⟩
      intro c hc
      simp only [List.nil_append] at hc
      rcases hWa _ hc with h1 | ⟨n, h1⟩ | ⟨c2, h1, h2⟩
      · cases h1
      · cases h1
      · cases h1
        exact congrArg CacheProgram.tars h2
    · rcases u2
      dsimp only []
      rcases hC : collectionPhase env cache2 ir with ⟨r3, cache3, acts3⟩
      have hCp := collectionPhase_actions env cache2 ir
      rw [hC] at hCp
      constructor
      · rw [show ((r3, cache3, acts3).2.1 : Cache) = cache3 from rfl]
        rw [hCp.1]
        exact congrArg CacheProgram.tars hWp
      · intro c hc
        simp only [List.nil_append] at hc
        rcases List.mem_append.mp hc with hc | hc
        · rcases hWa _ hc with h1 | ⟨n, h1⟩ | ⟨c2, h1, h2⟩
          · cases h1
          · cases h1
          · cases h1
            exact congrArg CacheProgram.tars h2
        · rcases hCp.2 _ hc with ⟨m, h1⟩ | ⟨c2, h1, h2⟩
          · cases h1
          · cases h1
            rw [h2]
            exact congrArg CacheProgram.tars hWp

theorem process_deploy_tars_stable (cachePath : String) (cache : Cache) (env : Env)
    (interrupted : Bool) (h : cache.program.tars ≠ "") :
    (process_deploy cachePath cache env interrupted).2.1.program.tars =
      cache.program.tars ∧
    ∀ c, .syncFile c ∈ (process_deploy cachePath cache env interrupted).2.2 →
      c.program.tars = cache.program.tars := by
  simp only [process_deploy]
  repeat' split
  all_goals
    first
      | exact deployPhases_tars_stable env _ cache interrupted h
      | simp

/-- Claim C5 (confirmed): a deploy run that starts with an empty cached
program address and successfully creates the remote account emits exactly
the creation transaction followed by a cache persist whose snapshot already
carries the new address, before anything else (in particular before any
config-line work, which is in `rest`); every later persisted snapshot and
the final in-memory cache still carry that address.  Moreover, for every run
starting with a non-empty address, no phase changes it: the final cache and
every persisted snapshot keep the original address. -/
theorem C5_address_persisted_once
    (cachePath : String) (cache : Cache) (env : Env) (interrupted : Bool)
    (config_data : ConfigData) (tars_data : TarsData) (w : String)
    (lamports balance : Nat)
    (h0 : cache.items ≠ [])
    (h1 : validateCacheItems env cache.items = .ok ())
    (h2 : env.caseSetupOk = true)
    (h3 : env.configData = some config_data)
    (h4 : config_data.number =
      cache.items.length - (if (cache.items.lookup "-1").isSome then 1 else 0))
    (h5 : env.checkSymbol config_data.symbol = true)
    (h6 : env.checkFee config_data.seller_fee_basis_points = true)
    (h8 : cache.program.tars = "")
    (h9 : create_tars_data env config_data DEFAULT_UUID = .ok tars_data)
    (h10 : treasuryWallet env config_data = .ok w)
    (hL : env.rentExemption (tarsAccountSize env.configArrayStart env.configLineSize
        tars_data.hidden_settings.isSome tars_data.items_available) = some lamports)
    (hB : env.payerBalance = some balance)
    (hLB : ¬ lamports > balance)
    (hSend : env.initSendOk = true)
    (hSync : env.syncFileOk = true) :
    (∃ sz rest,
      (process_deploy cachePath cache env interrupted).2.2 =
        .initTx sz lamports env.newTarsPubkey ::
        .syncFile { cache with program := CacheProgram.new_from_cm env.newTarsPubkey }
          :: rest ∧
      ({ cache with
          program := CacheProgram.new_from_cm env.newTarsPubkey } : Cache).program.tars
        = env.newTarsPubkey ∧
      (∀ c, .syncFile c ∈ rest → c.program.tars = env.newTarsPubkey) ∧
      (process_deploy cachePath cache env interrupted).2.1.program.tars =
        env.newTarsPubkey) ∧
    (∀ path2 (cache2 : Cache) env2 intr2, cache2.program.tars ≠ "" →
      (process_deploy path2 cache2 env2 intr2).2.1.program.tars =
        cache2.program.tars ∧
      (∀ c, .syncFile c ∈ (process_deploy path2 cache2 env2 intr2).2.2 →
        c.program.tars = cache2.program.tars)) := by
  have hReach := process_deploy_reaches_phases cachePath cache env interrupted
    config_data h0 h1 h2 h3 h4 h5 h6
  obtain ⟨rest, htr, hsub, hsup, hfin⟩ := deployPhases_create_shape env config_data
    cache interrupted tars_data w lamports balance h8 h9 h10 hL hB hLB hSend hSync
  constructor
  · refine ⟨tarsAccountSize env.configArrayStart env.configLineSize
      tars_data.hidden_settings.isSome tars_data.items_available, rest, ?_, rfl, ?_, ?_⟩
    · rw [hReach, htr]
    · intro c hc
      rcases hsup _ hc with hw | ⟨m, h1'⟩ | ⟨c2, h1', h2'⟩
      · have hWa := writePhase_actions env config_data
          { cache with program := CacheProgram.new_from_cm env.newTarsPubkey }
          interrupted
        rcases hWa _ hw with h1' | ⟨n, h1'⟩ | ⟨c2, h1', h2'⟩
        · cases h1'
        · cases h1'
        · cases h1'
          rw [congrArg CacheProgram.tars h2']
          rfl
      · cases h1'
      · cases h1'
        exact h2'
    · rw [hReach]
      exact hfin
  · intro path2 cache2 env2 intr2 hne
    exact process_deploy_tars_stable path2 cache2 env2 intr2 hne

/-- Claim C6 (confirmed): when the uploader returns a non-empty error list,
the deploy run returns the single aggregate `AddConfigLineFailed` error
carrying the error count and the deduplicated message set (no duplicates,
same membership as the raw messages — the source folds them through a
`HashSet`), and no collection transaction is ever sent. -/
theorem C6_upload_error_aggregation
    (cachePath : String) (cache : Cache) (env : Env) (interrupted : Bool)
    (config_data : ConfigData) (pk : String) (ir : Bool) (cache1 : Cache)
    (acts1 : List RunAction)
    (h0 : cache.items ≠ [])
    (h1 : validateCacheItems env cache.items = .ok ())
    (h2 : env.caseSetupOk = true)
    (h3 : env.configData = some config_data)
    (h4 : config_data.number =
      cache.items.length - (if (cache.items.lookup "-1").isSome then 1 else 0))
    (h5 : env.checkSymbol config_data.symbol = true)
    (h6 : env.checkFee config_data.seller_fee_basis_points = true)
    (hE : ensureTars env config_data cache = (.ok (pk, ir), cache1, acts1))
    (hHidden : config_data.hidden_settings = none)
    (hLines : generate_config_lines config_data.number cache1.items ≠ [])
    (hErrs : env.uploadErrors ≠ []) :
    (process_deploy cachePath cache env interrupted).1 =
      .error (.addConfigLineFailed env.uploadErrors.length env.uploadErrors.dedup) ∧
    env.uploadErrors.dedup.Nodup ∧
    (∀ m, m ∈ env.uploadErrors.dedup ↔ m ∈ env.uploadErrors) ∧
    (∀ a ∈ (process_deploy cachePath cache env interrupted).2.2,
      a.isCollectionTx = false) := by
  have hReach := process_deploy_reaches_phases cachePath cache env interrupted
    config_data h0 h1 h2 h3 h4 h5 h6
  have hA1 := ensureTars_actions env config_data cache
  rw [hE] at hA1
  rw [hReach]
  simp only [deployPhases, hE]
  rcases hW : writePhase env config_data cache1 interrupted with ⟨r2, cache2, acts2⟩
  have hWr := writePhase_upload_result env config_data cache1 interrupted
    hHidden hLines hErrs
  have hWa := writePhase_actions env config_data cache1 interrupted
  rw [hW] at hWr hWa
  have hr2 : r2 = .error (.addConfigLineFailed env.uploadErrors.length
      env.uploadErrors.dedup) := hWr
  subst hr2
  refine ⟨rfl, List.nodup_dedup _, fun m => List.mem_dedup, ?_⟩
  intro a ha
  rcases List.mem_append.mp ha with ha | ha
  · rcases hA1 a ha with ⟨s, l, rfl⟩ | ⟨c, rfl, _⟩ <;> rfl
  · rcases hWa a ha with rfl | ⟨n, rfl⟩ | ⟨c, rfl, _⟩ <;> rfl

/-- Claim C8 (confirmed): whatever value the shared interrupt flag holds on
entry (the `interrupted` binder), a run that reaches the config-line phase
with a non-empty delta stores `false` into the flag immediately before
invoking the uploader, and every uploader invocation in the whole trace sees
the flag as `false` — a stale flag can never abort the new batch before its
first dispatch. -/
theorem C8_interrupt_flag_cleared
    (cachePath : String) (cache : Cache) (env : Env) (interrupted : Bool)
    (config_data : ConfigData) (pk : String) (ir : Bool) (cache1 : Cache)
    (acts1 : List RunAction)
    (h0 : cache.items ≠ [])
    (h1 : validateCacheItems env cache.items = .ok ())
    (h2 : env.caseSetupOk = true)
    (h3 : env.configData = some config_data)
    (h4 : config_data.number =
      cache.items.length - (if (cache.items.lookup "-1").isSome then 1 else 0))
    (h5 : env.checkSymbol config_data.symbol = true)
    (h6 : env.checkFee config_data.seller_fee_basis_points = true)
    (hE : ensureTars env config_data cache = (.ok (pk, ir), cache1, acts1))
    (hHidden : config_data.hidden_settings = none)
    (hLines : generate_config_lines config_data.number cache1.items ≠ []) :
    ∃ post,
      (process_deploy cachePath cache env interrupted).2.2 =
        acts1 ++ .storeInterrupted false ::
          .uploadInvoke false
            (generate_config_lines config_data.number cache1.items).length :: post ∧
      (∀ b n, .uploadInvoke b n ∈
        (process_deploy cachePath cache env interrupted).2.2 → b = false) := by
  have hReach := process_deploy_reaches_phases cachePath cache env interrupted
    config_data h0 h1 h2 h3 h4 h5 h6
  have hA1 := ensureTars_actions env config_data cache
  rw [hE] at hA1
  rw [hReach]
  simp only [deployPhases, hE]
  rcases hW : writePhase env config_data cache1 interrupted with ⟨r2, cache2, acts2⟩
  have hWacts := writePhase_upload_acts env config_data cache1 interrupted
    hHidden hLines
  have hWa := writePhase_actions env config_data cache1 interrupted
  rw [hW] at hWacts hWa
  have ha2 : acts2 = .storeInterrupted false ::
      .uploadInvoke false
        (generate_config_lines config_data.number cache1.items).length ::
      (uploadConfigLinesModel cache1 env.uploadConfirmed).2 := hWacts
  rcases r2 with e2 | u2
  · refine ⟨(uploadConfigLinesModel cache1 env.uploadConfirmed).2, ?_, ?_⟩
    · rw [ha2]
    · intro b n hmem
      rcases List.mem_append.mp hmem with hm | hm
      · rcases hA1 _ hm with ⟨s, l, heq⟩ | ⟨c, heq, _⟩ <;> cases heq
      · rcases hWa _ hm with heq | ⟨n2, heq⟩ | ⟨c, heq, _⟩ <;> cases heq
        rfl
  · rcases u2
    refine ⟨(uploadConfigLinesModel cache1 env.uploadConfirmed).2 ++
      (collectionPhase env cache2 ir).2.2, ?_, ?_⟩
    · rw [ha2]
      simp
    · intro b n hmem
      rcases List.mem_append.mp hmem with hm | hm
      · rcases hA1 _ hm with ⟨s, l, heq⟩ | ⟨c, heq, _⟩ <;> cases heq
      · rcases List.mem_append.mp hm with hm2 | hm2
        · rcases hWa _ hm2 with heq | ⟨n2, heq⟩ | ⟨c, heq, _⟩ <;> cases heq
          rfl
        · rcases (collectionPhase_actions env cache2 ir).2 _ hm2 with
            ⟨m, heq⟩ | ⟨c, heq, _⟩ <;> cases heq

/-- Claim C4 (confirmed): with the rent query and the payer-balance fetch
succeeding, `initialize_tars` (embedded as `init_tars`) fails with
`BalanceTooLow(have, need)` exactly when the rent-exemption lamports for the
computed account size strictly exceed the payer balance; at exact equality
the create-account transaction is still sent. -/
theorem C4_balance_guard (env : Env) (tars_data : TarsData) (pk : String)
    (lamports balance : Nat)
    (hL : env.rentExemption (tarsAccountSize env.configArrayStart env.configLineSize
      tars_data.hidden_settings.isSome tars_data.items_available) = some lamports)
    (hB : env.payerBalance = some balance) :
    ((init_tars env tars_data pk).1 =
        .error (.balanceTooLow balance lamports) ↔ lamports > balance) ∧
    (lamports = balance →
      .initTx (tarsAccountSize env.configArrayStart env.configLineSize
        tars_data.hidden_settings.isSome tars_data.items_available) lamports pk
        ∈ (init_tars env tars_data pk).2) := by
  simp only [init_tars, hL, hB]
  constructor
  · constructor
    · intro h
      by_contra hgt
      rw [if_neg hgt] at h
      split at h
      · exact absurd h (by simp)
      · exact absurd (Except.error.inj h) (by simp)
    · intro hgt
      rw [if_pos hgt]
  · intro heq
    rw [if_neg (by omega)]
    split <;> simp

theorem validateCacheItems_missing (env : Env)
    (items : List (String × CacheItem))
    (hchecks : ∀ p ∈ items, (p.2.name ≠ "" → env.checkName p.2.name = true) ∧
      (p.2.metadata_link ≠ "" → env.checkUrl p.2.metadata_link = true))
    (hbad : ∃ p ∈ items, p.2.name = "" ∨ p.2.metadata_link = "") :
    ∃ j item_j, (j, item_j) ∈ items ∧
      ((validateCacheItems env items = .error (.missingName j) ∧
          item_j.name = "") ∨
       (validateCacheItems env items = .error (.missingMetadataLink j) ∧
          item_j.metadata_link = "")) := by
  induction items with
  | nil =>
      rcases hbad with ⟨p, hp, _⟩
      cases hp
  | cons q rest ih =>
      rcases q with ⟨k, item⟩
      by_cases hname : item.name = ""
      · exact ⟨k, item, List.mem_cons_self _ _,
          Or.inl ⟨by simp [validateCacheItems, hname], hname⟩⟩
      · have hcn : env.checkName item.name = true :=
          (hchecks _ (List.mem_cons_self _ _)).1 hname
        by_cases hlink : item.metadata_link = ""
        · refine ⟨k, item, List.mem_cons_self _ _, Or.inr ⟨?_, hlink⟩⟩
          simp [validateCacheItems, hname, hcn, hlink]
        · have hcu : env.checkUrl item.metadata_link = true :=
            (hchecks _ (List.mem_cons_self _ _)).2 hlink
          have hbad2 : ∃ p ∈ rest, p.2.name = "" ∨ p.2.metadata_link = "" := by
            rcases hbad with ⟨p, hp, hcase⟩
            rcases List.mem_cons.mp hp with rfl | hp
            · rcases hcase with hc | hc
              · exact absurd hc hname
              · exact absurd hc hlink
            · exact ⟨p, hp, hcase⟩
          obtain ⟨j, it, hmem, hres⟩ :=
            ih (fun p hp => hchecks p (List.mem_cons_of_mem _ hp)) hbad2
          refine ⟨j, it, List.mem_cons_of_mem _ hmem, ?_⟩
          have hstep : validateCacheItems env ((k, item) :: rest) =
              validateCacheItems env rest := by
            simp [validateCacheItems, hname, hcn, hlink, hcu]
          rw [hstep]
          exact hres

/-- Claim C7 (confirmed): if an item that delta generation would include
(string key of an index below the manifest count, not yet on-chain) has an
empty name or empty metadata link — and the external validators accept every
non-empty field, the spec's "primary validation happens upstream" — then the
run fails with a missing-field error naming the index of an offending item,
the cache is untouched and no action is performed. -/
theorem C7_missing_field
    (cachePath : String) (cache : Cache) (env : Env) (interrupted : Bool)
    (config_data : ConfigData) (i : Nat) (p : String × CacheItem)
    (hchecks : ∀ q ∈ cache.items, (q.2.name ≠ "" → env.checkName q.2.name = true) ∧
      (q.2.metadata_link ≠ "" → env.checkUrl q.2.metadata_link = true))
    (h3 : env.configData = some config_data)
    (hmem : p ∈ cache.items)
    (hkey : p.1 = toString i)
    (hincl : i < config_data.number)
    (hoc : p.2.on_chain = false)
    (hfield : p.2.name = "" ∨ p.2.metadata_link = "") :
    ∃ j item_j, (j, item_j) ∈ cache.items ∧
      ((process_deploy cachePath cache env interrupted =
          (.error (.missingName j), cache, []) ∧ item_j.name = "") ∨
       (process_deploy cachePath cache env interrupted =
          (.error (.missingMetadataLink j), cache, []) ∧
          item_j.metadata_link = "")) := by
  have hne : cache.items.isEmpty = false := by
    cases h : cache.items with
    | nil =>
        rw [h] at hmem
        cases hmem
    | cons a l => rfl
  obtain ⟨j, it, hjmem, hres⟩ :=
    validateCacheItems_missing env cache.items hchecks ⟨p, hmem, hfield⟩
  refine ⟨j, it, hjmem, ?_⟩
  rcases hres with ⟨hv, hn⟩ | ⟨hv, hn⟩
  · exact Or.inl ⟨by simp [process_deploy, hne, hv], hn⟩
  · exact Or.inr ⟨by simp [process_deploy, hne, hv], hn⟩

/-- Claim C9 (confirmed): a cache that loads but holds zero items makes the
deploy run return `CacheFileNotFound` naming the cache path — the same error
`load_cache` produces for an absent file with `allow_missing = false` — with
no validation performed and no action taken. -/
theorem C9_empty_cache (cachePath : String) (cache : Cache) (env : Env)
    (interrupted : Bool) (h : cache.items = []) :
    process_deploy cachePath cache env interrupted =
      (.error (.cacheFileNotFound cachePath), cache, []) ∧
    load_cache none cachePath false = .error (.cacheFileNotFound cachePath) := by
  constructor
  · simp [process_deploy, h]
  · rfl

/-- Claim C2 (corrected) — counterexample: on a cache holding the sentinel
"-1" and a tars whose remote state reports `items_redeemed = 1`, the deploy
run RETURNS SUCCESS and performs no action at all; it does not fail with a
CollectionLocked error as the claim asserts (`process_deploy` prints a
skipping message and moves on). -/
theorem C2_collection_counterexample :
    (process_deploy "cache.json" redeemedCache redeemedEnv false).1 = .ok () ∧
    (process_deploy "cache.json" redeemedCache redeemedEnv false).2.2 = [] :=
  ⟨rfl, rfl⟩

/-- Claim C2 (corrected) — amended: when the cache holds the sentinel "-1"
and an item was already redeemed remotely, the deploy orchestrator's
collection step is skipped: no error, no remote call, cache unchanged.  The
items-already-minted rejection lives in `set_collection`
(`src/collections/set.rs`), which fails once `items_redeemed > 0` when its
other guards pass.  When the collection item is already marked `on_chain`,
the step is a no-op that performs no remote call. -/
theorem C2_amended_collection_skip (env : Env) (cache : Cache) (it : CacheItem)
    (hmem : cache.items.lookup "-1" = some it) :
    (collectionPhase env cache true = (.ok (), cache, [])) ∧
    (it.on_chain = true → collectionPhase env cache false = (.ok (), cache, [])) ∧
    (∀ (payer : String) (tars_state : TarsState) (mint : String)
        (md : Metadata) (ed : MasterEditionV2) (sendOk : Bool),
      tars_state.items_redeemed > 0 →
      tars_state.data.retain_authority = true →
      md.update_authority = payer →
      ed.max_supply = some 0 →
      set_collection payer tars_state mint md ed sendOk =
        (.error .collectionLockedAfterMint, [])) := by
  refine ⟨?_, ?_, ?_⟩
  · simp [collectionPhase, hmem]
  · intro hoc
    simp [collectionPhase, hmem, hoc]
  · intro payer ts mint md ed sendOk hred hra hmd hed
    simp [set_collection, hra, hmd, hed, hred]

theorem set_collection_ok (payer : String) (ts : TarsState) (mint : String)
    (md : Metadata) (ed : MasterEditionV2) (sendOk : Bool)
    (acts : List RunAction)
    (h : set_collection payer ts mint md ed sendOk = (.ok (), acts)) :
    acts = [.collectionTx mint] := by
  simp only [set_collection] at h
  split at h
  · exact absurd (congrArg Prod.fst h) (by simp)
  · split at h
    · exact absurd (congrArg Prod.fst h) (by simp)
    · split at h
      · exact absurd (congrArg Prod.fst h) (by simp)
      · split at h
        · exact absurd (congrArg Prod.fst h) (by simp)
        · split at h
          · exact (congrArg Prod.snd h).symm
          · exact absurd (congrArg Prod.fst h) (by simp)

theorem remove_collection_ok (payer : String) (ts : TarsState) (mint : String)
    (md : Metadata) (sendOk : Bool) (acts : List RunAction)
    (h : remove_collection payer ts mint md sendOk = (.ok (), acts)) :
    acts = [.removeCollectionTx mint] := by
  simp only [remove_collection] at h
  split at h
  · exact absurd (congrArg Prod.fst h) (by simp)
  · split at h
    · exact absurd (congrArg Prod.fst h) (by simp)
    · split at h
      · exact (congrArg Prod.snd h).symm
      · exact absurd (congrArg Prod.fst h) (by simp)

theorem process_set_collection_ok_eq (env : CollectionsEnv)
    (argsS : SetCollectionArgs)
    (hOk : (process_set_collection env argsS).1 = .ok ()) :
    ((∃ t, argsS.tars = some t) ∧
      process_set_collection env argsS =
        (.ok (), [.collectionTx argsS.collection_mint])) ∨
    (argsS.tars = none ∧ ∃ cache, env.cacheFile = some cache ∧
      process_set_collection env argsS =
        (.ok (), [.collectionTx argsS.collection_mint,
          .syncFile (collectionCacheUpdate cache argsS.collection_mint)])) := by
  rcases hP : process_set_collection env argsS with ⟨r, acts⟩
  rw [hP] at hOk
  have hr : r = .ok () := hOk
  subst hr
  rcases hT : argsS.tars with _ | t
  · rcases hF : env.cacheFile with _ | cache
    · exfalso
      simp only [process_set_collection, hT, hF, load_cache] at hP
      split at hP <;> exact absurd (congrArg Prod.fst hP) (by simp)
    · right
      refine ⟨rfl, cache, rfl, ?_⟩
      simp only [process_set_collection, hT, hF, load_cache] at hP
      split at hP
      · exact absurd (congrArg Prod.fst hP) (by simp)
      · split at hP
        · exact absurd (congrArg Prod.fst hP) (by simp)
        · split at hP
          · exact absurd (congrArg Prod.fst hP) (by simp)
          · split at hP
            · exact absurd (congrArg Prod.fst hP) (by simp)
            · split at hP
              · exact absurd (congrArg Prod.fst hP) (by simp)
              · split at hP
                · exact absurd (congrArg Prod.fst hP) (by simp)
                · split at hP
                  · exact absurd (congrArg Prod.fst hP) (by simp)
                  · split at hP
                    · exact absurd (congrArg Prod.fst hP) (by simp)
                    · rename_i acts2 heqS
                      split at hP
                      · split at hP
                        · injection hP with h1 h2
                          rw [set_collection_ok _ _ _ _ _ _ _ heqS] at h2
                          rw [← h2]
                          rfl
                        · exact absurd (congrArg Prod.fst hP) (by simp)
                      · rename_i hno
                        exact absurd rfl hno
  · left
    refine ⟨⟨t, rfl⟩, ?_⟩
    simp only [process_set_collection, hT] at hP
    split at hP
    · exact absurd (congrArg Prod.fst hP) (by simp)
    · split at hP
      · exact absurd (congrArg Prod.fst hP) (by simp)
      · split at hP
        · exact absurd (congrArg Prod.fst hP) (by simp)
        · split at hP
          · exact absurd (congrArg Prod.fst hP) (by simp)
          · split at hP
            · exact absurd (congrArg Prod.fst hP) (by simp)
            · split at hP
              · exact absurd (congrArg Prod.fst hP) (by simp)
              · split at hP
                · exact absurd (congrArg Prod.fst hP) (by simp)
                · split at hP
                  · exact absurd (congrArg Prod.fst hP) (by simp)
                  · rename_i acts2 heqS
                    split at hP
                    · rename_i hyes
                      simp at hyes
                    · injection hP with h1 h2
                      rw [set_collection_ok _ _ _ _ _ _ _ heqS] at h2
                      rw [← h2]

theorem process_remove_collection_ok_eq (env : CollectionsEnv)
    (argsR : RemoveCollectionArgs)
    (hOk : (process_remove_collection env argsR).1 = .ok ()) :
    ((∃ t, argsR.tars = some t) ∧ ∃ m,
      process_remove_collection env argsR = (.ok (), [.removeCollectionTx m])) ∨
    (argsR.tars = none ∧ ∃ cache m, env.cacheFile = some cache ∧
      process_remove_collection env argsR =
        (.ok (), [.removeCollectionTx m,
          .syncFile (collectionCacheUpdate cache "")])) := by
  rcases hP : process_remove_collection env argsR with ⟨r, acts⟩
  rw [hP] at hOk
  have hr : r = .ok () := hOk
  subst hr
  rcases hT : argsR.tars with _ | t
  · rcases hF : env.cacheFile with _ | cache
    · exfalso
      simp only [process_remove_collection, hT, hF, load_cache] at hP
      split at hP <;> exact absurd (congrArg Prod.fst hP) (by simp)
    · right
      simp only [process_remove_collection, hT, hF, load_cache] at hP
      split at hP
      · exact absurd (congrArg Prod.fst hP) (by simp)
      · split at hP
        · exact absurd (congrArg Prod.fst hP) (by simp)
        · split at hP
          · exact absurd (congrArg Prod.fst hP) (by simp)
          · split at hP
            · exact absurd (congrArg Prod.fst hP) (by simp)
            · rename_i collection_mint heqM
              split at hP
              · exact absurd (congrArg Prod.fst hP) (by simp)
              · split at hP
                · exact absurd (congrArg Prod.fst hP) (by simp)
                · split at hP
                  · exact absurd (congrArg Prod.fst hP) (by simp)
                  · rename_i acts2 heqS
                    split at hP
                    · split at hP
                      · injection hP with h1 h2
                        rw [remove_collection_ok _ _ _ _ _ _ heqS] at h2
                        refine ⟨rfl, cache, collection_mint, rfl, ?_⟩
                        rw [← h2]
                        rfl
                      · exact absurd (congrArg Prod.fst hP) (by simp)
                    · rename_i hno
                      exact absurd rfl hno
  · left
    simp only [process_remove_collection, hT] at hP
    split at hP
    · exact absurd (congrArg Prod.fst hP) (by simp)
    · split at hP
      · exact absurd (congrArg Prod.fst hP) (by simp)
      · split at hP
        · exact absurd (congrArg Prod.fst hP) (by simp)
        · split at hP
          · exact absurd (congrArg Prod.fst hP) (by simp)
          · rename_i collection_mint heqM
            split at hP
            · exact absurd (congrArg Prod.fst hP) (by simp)
            · split at hP
              · exact absurd (congrArg Prod.fst hP) (by simp)
              · split at hP
                · exact absurd (congrArg Prod.fst hP) (by simp)
                · rename_i acts2 heqS
                  split at hP
                  · rename_i hyes
                    simp at hyes
                  · injection hP with h1 h2
                    rw [remove_collection_ok _ _ _ _ _ _ heqS] at h2
                    refine ⟨⟨t, rfl⟩, collection_mint, ?_⟩
                    rw [← h2]

/-- Claim C10 (confirmed): a successful `collection set` or
`collection remove` run persists a cache update exactly when no explicit
tars address was passed: with an explicit address the trace holds the remote
transaction and no cache write at all; without one, the trace is the remote
transaction followed by one persist of the loaded cache with the "-1" entry
removed and the collection mint set (set) or cleared (remove). -/
theorem C10_cache_update_iff_no_explicit_tars
    (env : CollectionsEnv) (argsS : SetCollectionArgs)
    (argsR : RemoveCollectionArgs) :
    ((process_set_collection env argsS).1 = .ok () →
      ((∃ t, argsS.tars = some t) →
        (∀ c, RunAction.syncFile c ∉ (process_set_collection env argsS).2) ∧
        .collectionTx argsS.collection_mint ∈ (process_set_collection env argsS).2) ∧
      (argsS.tars = none →
        ∃ cache, env.cacheFile = some cache ∧
          (process_set_collection env argsS).2 =
            [.collectionTx argsS.collection_mint,
             .syncFile (collectionCacheUpdate cache argsS.collection_mint)])) ∧
    ((process_remove_collection env argsR).1 = .ok () →
      ((∃ t, argsR.tars = some t) →
        (∀ c, RunAction.syncFile c ∉ (process_remove_collection env argsR).2) ∧
        (∃ m, .removeCollectionTx m ∈ (process_remove_collection env argsR).2)) ∧
      (argsR.tars = none →
        ∃ cache m, env.cacheFile = some cache ∧
          (process_remove_collection env argsR).2 =
            [.removeCollectionTx m,
             .syncFile (collectionCacheUpdate cache "")])) := by
  constructor
  · intro hOk
    rcases process_set_collection_ok_eq env argsS hOk with
      ⟨⟨t, hT⟩, hEq⟩ | ⟨hT, cache, hF, hEq⟩
    · constructor
      · intro _
        rw [hEq]
        exact ⟨fun c hc => by simp at hc, by simp⟩
      · intro hnone
        rw [hnone] at hT
        cases hT
    · constructor
      · rintro ⟨t, hsome⟩
        rw [hT] at hsome
        cases hsome
      · intro _
        exact ⟨cache, hF, by rw [hEq]⟩
  · intro hOk
    rcases process_remove_collection_ok_eq env argsR hOk with
      ⟨⟨t, hT⟩, m, hEq⟩ | ⟨hT, cache, m, hF, hEq⟩
    · constructor
      · intro _
        rw [hEq]
        exact ⟨fun c hc => by simp at hc, m, by simp⟩
      · intro hnone
        rw [hnone] at hT
        cases hT
    · constructor
      · rintro ⟨t, hsome⟩
        rw [hT] at hsome
        cases hsome
      · intro _
        exact ⟨cache, m, hF, by rw [hEq]⟩

/-- Concrete run for claim C1 at a one-item cache with every check passing. -/
theorem C1_count_mismatch_guard_witness :
    okCache.items.length -
      (if (okCache.items.lookup "-1").isSome then 1 else 0) =
    (okCache.items.filter (fun p => p.1 ≠ "-1")).length :=
  (C1_count_mismatch_guard "c" okCache okEnv false okConfig (by decide)
    (by decide) rfl rfl rfl).1

/-- Concrete run for claim C9 at the empty cache. -/
theorem C9_empty_cache_witness :
    process_deploy "c" Cache.new okEnv false =
      (.error (.cacheFileNotFound "c"), Cache.new, []) ∧
    load_cache none "c" false = .error (.cacheFileNotFound "c") :=
  C9_empty_cache "c" Cache.new okEnv false rfl

/-- Concrete run for claim C4 at the exact-balance boundary. -/
theorem C4_balance_guard_witness :
    ((init_tars eqEnv okTarsData "T").1 =
        .error (.balanceTooLow 1000 1000) ↔ 1000 > 1000) ∧
    (1000 = 1000 →
      .initTx (tarsAccountSize eqEnv.configArrayStart eqEnv.configLineSize
        okTarsData.hidden_settings.isSome okTarsData.items_available) 1000 "T"
        ∈ (init_tars eqEnv okTarsData "T").2) :=
  C4_balance_guard eqEnv okTarsData "T" 1000 1000 rfl rfl

/-- Concrete run for claim C3: the non-hidden deploy invokes the uploader. -/
theorem C3_hidden_settings_size_witness :
    ∃ n, RunAction.uploadInvoke false n ∈
      (process_deploy "c" okCache okEnv false).2.2 :=
  ((C3_hidden_settings_size "c" okCache okEnv false okConfig okTarsData "PAYER"
    100 1000 (by decide) rfl rfl rfl (by decide) rfl rfl rfl rfl rfl rfl rfl
    (by decide) rfl rfl).2 rfl).2 (by decide)

/-- Concrete run for claim C5: the created address ends up in the cache. -/
theorem C5_address_persisted_once_witness :
    (process_deploy "c" okCache okEnv false).2.1.program.tars = "TARS1" := by
  obtain ⟨⟨sz, rest, htr, hfirst, hrest, hfin⟩, hstable⟩ :=
    C5_address_persisted_once "c" okCache okEnv false okConfig okTarsData "PAYER"
      100 1000 (by decide) rfl rfl rfl (by decide) rfl rfl rfl rfl rfl rfl rfl
      (by decide) rfl rfl
  exact hfin

/-- Concrete run for claim C6 with two identical uploader errors. -/
theorem C6_upload_error_aggregation_witness :
    (process_deploy "c" okCache errEnv false).1 =
      .error (.addConfigLineFailed errEnv.uploadErrors.length
        errEnv.uploadErrors.dedup) :=
  (C6_upload_error_aggregation "c" okCache errEnv false okConfig "TARS1" false
    { okCache with program := CacheProgram.new_from_cm "TARS1" }
    [.initTx 940 100 "TARS1",
     .syncFile { okCache with program := CacheProgram.new_from_cm "TARS1" }]
    (by decide) rfl rfl rfl (by decide) rfl rfl rfl rfl (by decide)
    (by decide)).1

/-- Concrete run for claim C8 with the interrupt flag initially set. -/
theorem C8_interrupt_flag_cleared_witness :
    ∃ post,
      (process_deploy "c" okCache okEnv true).2.2 =
        [RunAction.initTx 940 100 "TARS1",
         RunAction.syncFile { okCache with
           program := CacheProgram.new_from_cm "TARS1" }] ++
        .storeInterrupted false ::
        .uploadInvoke false (generate_config_lines okConfig.number
          ({ okCache with
            program := CacheProgram.new_from_cm "TARS1" } : Cache).items).length
          :: post ∧
      (∀ b n, .uploadInvoke b n ∈
        (process_deploy "c" okCache okEnv true).2.2 → b = false) :=
  C8_interrupt_flag_cleared "c" okCache okEnv true okConfig "TARS1" false
    { okCache with program := CacheProgram.new_from_cm "TARS1" }
    [.initTx 940 100 "TARS1",
     .syncFile { okCache with program := CacheProgram.new_from_cm "TARS1" }]
    (by decide) rfl rfl rfl (by decide) rfl rfl rfl rfl (by decide)

/-- Concrete run for claim C7 at a cache whose item has an empty name. -/
theorem C7_missing_field_witness :
    ∃ j item_j, (j, item_j) ∈ missCache.items ∧
      ((process_deploy "c" missCache okEnv false =
          (.error (.missingName j), missCache, []) ∧ item_j.name = "") ∨
       (process_deploy "c" missCache okEnv false =
          (.error (.missingMetadataLink j), missCache, []) ∧
          item_j.metadata_link = "")) :=
  C7_missing_field "c" missCache okEnv false okConfig 0
    ("0", { name := "", metadata_link := "u", on_chain := false })
    (by intro q hq; exact ⟨fun _ => rfl, fun _ => rfl⟩) rfl (by decide)
    (by decide) (by decide) rfl (Or.inl rfl)

/-- Concrete run for the amended claim C2 on the redeemed-state cache. -/
theorem C2_amended_collection_skip_witness :
    collectionPhase redeemedEnv redeemedCache true =
      (.ok (), redeemedCache, []) ∧
    set_collection "PAYER" redeemedState "MINT" { update_authority := "PAYER" }
      { max_supply := some 0 } true = (.error .collectionLockedAfterMint, []) :=
  ⟨(C2_amended_collection_skip redeemedEnv redeemedCache
      { name := "coll", metadata_link := "u", on_chain := false } rfl).1,
   (C2_amended_collection_skip redeemedEnv redeemedCache
      { name := "coll", metadata_link := "u", on_chain := false } rfl).2.2
     "PAYER" redeemedState "MINT" { update_authority := "PAYER" }
     { max_supply := some 0 } true (by decide) rfl rfl rfl⟩

/-- Concrete runs for claim C10 with the tars taken from the cache. -/
theorem C10_cache_update_iff_no_explicit_tars_witness :
    (∃ cache, collOkEnv.cacheFile = some cache ∧
      (process_set_collection collOkEnv setArgs).2 =
        [.collectionTx setArgs.collection_mint,
         .syncFile (collectionCacheUpdate cache setArgs.collection_mint)]) ∧
    (∃ cache m, collOkEnv.cacheFile = some cache ∧
      (process_remove_collection collOkEnv removeArgs).2 =
        [.removeCollectionTx m,
         .syncFile (collectionCacheUpdate cache "")]) :=
  ⟨((C10_cache_update_iff_no_explicit_tars collOkEnv setArgs removeArgs).1
      rfl).2 rfl,
   ((C10_cache_update_iff_no_explicit_tars collOkEnv setArgs removeArgs).2
      rfl).2 rfl⟩
